import Mathlib

/-!
# Verification of the tada task-record engine (`src/item.rs`)

Shallow embedding of the core task-record component of the `rust-tada`
repository: calendar dates (chrono `NaiveDate` restricted to non-negative
years), the anchored item regular expression `RE_TADA_ITEM` (modelled as a
deterministic leftmost-first backtracking matcher), the derived-field
scanners (`RE_TAG`, `RE_CONTEXT`, `RE_KV`, size patterns), the stateful
`Item` record with its write-once derivation caches (`FreezeBox` fields),
and the mutation operations (`set_description`, `set_priority`, `but_done`,
`set_urgency`).

Strings are modelled as `List Char`; `\d` and letter classes are modelled
over ASCII, and `\s` by `Char.isWhitespace`, which agrees with the source
on all ordinary task lines.
-/

set_option maxRecDepth 10000
set_option maxHeartbeats 1000000

abbrev Str := List Char

/-! ## Calendar dates (chrono `NaiveDate`, non-negative years) -/

structure Date where
  y : Nat
  m : Nat
  d : Nat
deriving DecidableEq, Repr

@[simp] theorem Date_mk_y (a b c : Nat) : (Date.mk a b c).y = a := rfl

@[simp] theorem Date_mk_m (a b c : Nat) : (Date.mk a b c).m = b := rfl

@[simp] theorem Date_mk_d (a b c : Nat) : (Date.mk a b c).d = c := rfl

/-- Gregorian leap-year test, as used by chrono. -/
def isLeapYear (y : Nat) : Bool :=
  (y % 4 == 0 && y % 100 != 0) || (y % 400 == 0)

/-- Length of month `m` (1..12) given the leap flag. -/
def monthLength (leap : Bool) (m : Nat) : Nat :=
  match m with
  | 1 => 31
  | 2 => if leap then 29 else 28
  | 3 => 31
  | 4 => 30
  | 5 => 31
  | 6 => 30
  | 7 => 31
  | 8 => 31
  | 9 => 30
  | 10 => 31
  | 11 => 30
  | 12 => 31
  | _ => 0

def daysInMonth (y m : Nat) : Nat := monthLength (isLeapYear y) m

/-- A structurally valid calendar date. -/
def Date.Valid (dt : Date) : Prop :=
  1 ≤ dt.m ∧ dt.m ≤ 12 ∧ 1 ≤ dt.d ∧ dt.d ≤ daysInMonth dt.y dt.m

instance (dt : Date) : Decidable dt.Valid := by
  unfold Date.Valid; exact inferInstance

/-- `NaiveDate::succ_opt`: the next calendar day. -/
def succDate (dt : Date) : Date :=
  if dt.d < daysInMonth dt.y dt.m then ⟨dt.y, dt.m, dt.d + 1⟩
  else if dt.m < 12 then ⟨dt.y, dt.m + 1, 1⟩
  else ⟨dt.y + 1, 1, 1⟩

/-- `NaiveDate::pred_opt`: the previous calendar day. -/
def predDate (dt : Date) : Date :=
  if 1 < dt.d then ⟨dt.y, dt.m, dt.d - 1⟩
  else if 1 < dt.m then ⟨dt.y, dt.m - 1, daysInMonth dt.y (dt.m - 1)⟩
  else ⟨dt.y - 1, 12, 31⟩

/-- `date + Duration::days(n)` for a non-negative count. -/
def addDays : Date → Nat → Date
  | dt, 0 => dt
  | dt, n + 1 => succDate (addDays dt n)

/-- Chronological strict order on dates (lexicographic; agrees with
chrono's `Ord` on valid dates). -/
def dlt (a b : Date) : Prop :=
  a.y < b.y ∨ (a.y = b.y ∧ (a.m < b.m ∨ (a.m = b.m ∧ a.d < b.d)))

/-- Chronological order on dates. -/
def dle (a b : Date) : Prop :=
  a.y < b.y ∨ (a.y = b.y ∧ (a.m < b.m ∨ (a.m = b.m ∧ a.d ≤ b.d)))

instance (a b : Date) : Decidable (dlt a b) := by unfold dlt; exact inferInstance
instance (a b : Date) : Decidable (dle a b) := by unfold dle; exact inferInstance

/-- Cumulative day count before month `m` in a year with leap flag `leap`. -/
def daysBeforeMonth (leap : Bool) (m : Nat) : Nat :=
  match m with
  | 1 => 0
  | 2 => 31
  | 3 => if leap then 60 else 59
  | 4 => if leap then 91 else 90
  | 5 => if leap then 121 else 120
  | 6 => if leap then 152 else 151
  | 7 => if leap then 182 else 181
  | 8 => if leap then 213 else 212
  | 9 => if leap then 244 else 243
  | 10 => if leap then 274 else 273
  | 11 => if leap then 305 else 304
  | 12 => if leap then 335 else 334
  | _ => 0

/-- Rata-die day number (day 1 = 0001-01-01, proleptic Gregorian). -/
def rataDie (dt : Date) : Nat :=
  365 * (dt.y - 1) + (dt.y - 1) / 4 - (dt.y - 1) / 100 + (dt.y - 1) / 400
    + daysBeforeMonth (isLeapYear dt.y) dt.m + dt.d

/-- ISO weekday number (`%u` in chrono): Monday = 1 .. Sunday = 7. -/
def isoWeekday (dt : Date) : Nat := (rataDie dt - 1) % 7 + 1

example : isoWeekday ⟨2023, 11, 18⟩ = 6 := by decide
example : isoWeekday ⟨2023, 11, 19⟩ = 7 := by decide
example : isoWeekday ⟨2023, 11, 16⟩ = 4 := by decide

/-! ## The item regular expression `RE_TADA_ITEM`

`^( x \s+ )?( [(] [A-Z] [)] \s+ )?( \d{4}-\d{2}-\d{2} \s+ )?( \d{4}-\d{2}-\d{2} \s+ )?( .+ )$`

The Rust `regex` crate uses leftmost-first (Perl-like) match semantics: each
optional greedy group is tried with the maximal `\s+` run first, then with
shorter runs, then skipped, and the first assignment under which the rest of
the pattern matches wins.  `matchItem` below enumerates the candidates of
each group in exactly that order. -/

def isWs (c : Char) : Bool := c.isWhitespace

def isDigitCh (c : Char) : Bool := '0' ≤ c && c ≤ '9'

/-- Reader for the literal `x` of group 1 (whitespace handled by `groupOpts`). -/
def readX (s : Str) : Option (Unit × Str) :=
  match s with
  | c :: r => if c = 'x' then some ((), r) else none
  | [] => none

/-- Reader for the `[(] [A-Z] [)]` token of group 2. -/
def readPrio (s : Str) : Option (Char × Str) :=
  match s with
  | a :: b :: c :: r =>
    if a = '(' ∧ c = ')' ∧ 'A' ≤ b ∧ b ≤ 'Z' then some (b, r) else none
  | _ => none

/-- Reader for the `\d{4}-\d{2}-\d{2}` token of groups 3 and 4. -/
def readDate (s : Str) : Option (Str × Str) :=
  match s with
  | a :: b :: c :: d :: e :: f :: g :: h :: i :: j :: r =>
    if isDigitCh a ∧ isDigitCh b ∧ isDigitCh c ∧ isDigitCh d ∧ e = '-'
        ∧ isDigitCh f ∧ isDigitCh g ∧ h = '-' ∧ isDigitCh i ∧ isDigitCh j
    then some ([a, b, c, d, e, f, g, h, i, j], r) else none
  | _ => none

/-- Candidate list for one optional group `( token \s+ )?`, in leftmost-first
order: token plus the maximal run of whitespace first, down to one whitespace
character, then the group skipped.  The capture is the token text (the source
trims the captured text before use, so trailing whitespace is dropped here). -/
def groupOpts {α : Type} (rd : Str → Option (α × Str)) (s : Str) :
    List (Option α × Str) :=
  match rd s with
  | none => [(none, s)]
  | some (a, rest) =>
    let n := (rest.takeWhile isWs).length
    if n = 0 then [(none, s)]
    else ((List.range n).map fun i => (some a, rest.drop (n - i))) ++ [(none, s)]

/-- The captures of `RE_TADA_ITEM`. -/
structure RawCaps where
  cx : Option Unit
  cp : Option Char
  c3 : Option Str
  c4 : Option Str
  c5 : Str
deriving DecidableEq, Repr

/-- Group 5: `.+` anchored at the end (`.` matches everything but newline). -/
def descOk (s : Str) : Bool := !s.isEmpty && s.all fun c => c != '\n'

def tryDesc (cx : Option Unit) (cp : Option Char) (c3 c4 : Option Str)
    (s : Str) : Option RawCaps :=
  if descOk s then some ⟨cx, cp, c3, c4, s⟩ else none

def tryG4 (cx : Option Unit) (cp : Option Char) (c3 : Option Str) (s : Str) :
    Option RawCaps :=
  (groupOpts readDate s).findSome? fun pr => tryDesc cx cp c3 pr.1 pr.2

def tryG3 (cx : Option Unit) (cp : Option Char) (s : Str) : Option RawCaps :=
  (groupOpts readDate s).findSome? fun pr => tryG4 cx cp pr.1 pr.2

def tryG2 (cx : Option Unit) (s : Str) : Option RawCaps :=
  (groupOpts readPrio s).findSome? fun pr => tryG3 cx pr.1 pr.2

/-- Leftmost-first match of `RE_TADA_ITEM` against a whole line. -/
def matchItem (s : Str) : Option RawCaps :=
  (groupOpts readX s).findSome? fun pr => tryG2 pr.1 pr.2

/-! ## Date formatting and strict `%Y-%m-%d` parsing -/

def digitCh (n : Nat) : Char :=
  match n with
  | 0 => '0' | 1 => '1' | 2 => '2' | 3 => '3' | 4 => '4'
  | 5 => '5' | 6 => '6' | 7 => '7' | 8 => '8' | 9 => '9'
  | _ => '0'

def digitVal (c : Char) : Nat := c.toNat - 48

def pad2 (n : Nat) : Str := [digitCh (n / 10 % 10), digitCh (n % 10)]

def pad4 (n : Nat) : Str :=
  [digitCh (n / 1000 % 10), digitCh (n / 100 % 10), digitCh (n / 10 % 10),
   digitCh (n % 10)]

/-- chrono `%Y`: zero-padded to four digits, full width beyond year 9999. -/
def formatYear (n : Nat) : Str :=
  if n < 10000 then pad4 n else Nat.toDigits 10 n

/-- `d.format("%Y-%m-%d")`. -/
def formatDate (dt : Date) : Str :=
  formatYear dt.y ++ '-' :: pad2 dt.m ++ '-' :: pad2 dt.d

/-- `NaiveDate::parse_from_str(s, "%Y-%m-%d")` on the ten-character shape
produced by the positional capture groups and by `formatDate` (calendar
validity checked as chrono does). -/
def parseDateStr (s : Str) : Option Date :=
  match s with
  | [a, b, c, d, '-', e, f, '-', g, h] =>
    if isDigitCh a ∧ isDigitCh b ∧ isDigitCh c ∧ isDigitCh d ∧ isDigitCh e
        ∧ isDigitCh f ∧ isDigitCh g ∧ isDigitCh h then
      let y := ((digitVal a * 10 + digitVal b) * 10 + digitVal c) * 10 + digitVal d
      let mo := digitVal e * 10 + digitVal f
      let dd := digitVal g * 10 + digitVal h
      if 1 ≤ mo ∧ mo ≤ 12 ∧ 1 ≤ dd ∧ dd ≤ daysInMonth y mo then
        some ⟨y, mo, dd⟩
      else none
    else none
  | _ => none

/-- `str::trim`. -/
def trimStr (s : Str) : Str :=
  ((s.dropWhile isWs).reverse.dropWhile isWs).reverse

/-! ## Classification enums -/

/-- Five levels of importance (`Importance` in the source). -/
inductive Importance
  | A | B | C | D | E
deriving DecidableEq, Repr

/-- `Importance::from_char`. -/
def Importance.from_char (c : Char) : Option Importance :=
  if c = 'A' then some .A
  else if c = 'B' then some .B
  else if c = 'C' then some .C
  else if c = 'D' then some .D
  else if 'E' ≤ c ∧ c ≤ 'Z' then some .E
  else none

/-- Seven levels of urgency (`Urgency` in the source, declaration order). -/
inductive Urgency
  | Overdue | Today | Soon | ThisWeek | NextWeek | NextMonth | Later
deriving DecidableEq, Repr

/-- Rank of an urgency in the derived `Ord` (declaration order). -/
def Urgency.rank : Urgency → Nat
  | .Overdue => 0
  | .Today => 1
  | .Soon => 2
  | .ThisWeek => 3
  | .NextWeek => 4
  | .NextMonth => 5
  | .Later => 6

/-- The derived strict order on `Urgency` (`<` in the source). -/
def urgLt (a b : Urgency) : Prop := a.rank < b.rank

instance (a b : Urgency) : Decidable (urgLt a b) := by
  unfold urgLt; exact inferInstance

/-- Three t-shirt sizes (`TshirtSize` in the source). -/
inductive TshirtSize
  | Small | Medium | Large
deriving DecidableEq, Repr

/-! ## Date snapshots and urgency classification

The source evaluates `DATE_TODAY`, `DATE_SOON`, `DATE_WEEKEND`,
`DATE_NEXT_WEEKEND` and `DATE_NEXT_MONTH` once per process from
`Utc::now()`; they are modelled as functions of an explicit `today`. -/

/-- `DATE_SOON`: today plus two days. -/
def dateSoon (today : Date) : Date := addDays today 2

/-- `DATE_WEEKEND`: `today.week(Weekday::Mon).last_day()`, the Sunday of the
current Monday-based week. -/
def dateWeekend (today : Date) : Date := addDays today (7 - isoWeekday today)

/-- `DATE_NEXT_WEEKEND`: the Sunday of next week. -/
def dateNextWeekend (today : Date) : Date := addDays (dateWeekend today) 7

/-- `DATE_NEXT_MONTH`: the day before the first day of the month after next
(the source's `match` on the current month). -/
def dateNextMonth (today : Date) : Date :=
  predDate
    (if today.m = 11 then ⟨today.y + 1, 1, 1⟩
     else if today.m = 12 then ⟨today.y + 1, 2, 1⟩
     else ⟨today.y, today.m + 2, 1⟩)

/-- `Urgency::from_due_date`. -/
def Urgency.from_due_date (today due : Date) : Urgency :=
  if dlt due today then .Overdue
  else if due = today then .Today
  else if dle due (dateSoon today) then .Soon
  else if dle due (dateWeekend today) then .ThisWeek
  else if dle due (dateNextWeekend today) then .NextWeek
  else if dle due (dateNextMonth today) then .NextMonth
  else .Later

/-! ## Description scanners (`RE_TAG`, `RE_CONTEXT`, `RE_KV`, sizes) -/

/-- Length bound used for scanner termination. -/
theorem dropWhileLenLe (p : Char → Bool) (l : Str) :
    (l.dropWhile p).length ≤ l.length := by
  induction l with
  | nil => simp [List.dropWhile]
  | cons c t ih =>
    simp only [List.dropWhile]
    split
    · exact Nat.le_succ_of_le ih
    · simp

/-- Scan for `(?:^|\s) MARK (\S+)` captures, leftmost first, non-overlapping,
with explicit fuel (one unit per consumed character, so fuel `s.length`
always suffices).  The flag records whether the current position is the
start of the string or preceded by whitespace. -/
def scanMarksF (mark : Char) : Nat → Bool → Str → List Str
  | _, _, [] => []
  | 0, _, _ => []
  | fuel + 1, canStart, c :: rest =>
    if canStart ∧ c = mark ∧ (rest.takeWhile fun x => !isWs x) ≠ [] then
      (rest.takeWhile fun x => !isWs x)
        :: scanMarksF mark fuel false (rest.dropWhile fun x => !isWs x)
    else
      scanMarksF mark fuel (isWs c) rest

def scanMarks (mark : Char) (canStart : Bool) (s : Str) : List Str :=
  scanMarksF mark s.length canStart s

/-- `Item::_build_tags` (`RE_TAG`, marker `+`). -/
def buildTags (desc : Str) : List Str := scanMarks '+' true desc

/-- `Item::_build_contexts` (`RE_CONTEXT`, marker `@`). -/
def buildContexts (desc : Str) : List Str := scanMarks '@' true desc

/-- Character class `[^\s:]` of `RE_KV`. -/
def keyCh (c : Char) : Bool := !isWs c && c != ':'

/-- Scan for `([^\s:]+):([^\s:]+)` matches, leftmost first,
non-overlapping, in description order (`RE_KV.captures_iter`), again with
character-count fuel. -/
def scanKVF : Nat → Str → List (Str × Str)
  | _, [] => []
  | 0, _ => []
  | fuel + 1, c :: rest =>
    if keyCh c then
      match (c :: rest).dropWhile keyCh with
      | ':' :: r2 =>
        let v := r2.takeWhile keyCh
        if v = [] then scanKVF fuel rest
        else ((c :: rest).takeWhile keyCh, v) :: scanKVF fuel (r2.dropWhile keyCh)
      | _ => scanKVF fuel rest
    else scanKVF fuel rest

def scanKV (s : Str) : List (Str × Str) := scanKVF s.length s

/-- `Item::_build_kv`: a `HashMap` built by inserting the scanned pairs in
order; lookup returns the value of the last insertion of the key. -/
def kvGet (desc : Str) (k : Str) : Option Str :=
  (scanKV desc).foldl (fun acc pr => if pr.1 = k then some pr.2 else acc) none

/-- Case-insensitive full match of `X*S` / `X*M` / `X*L` (target letter in
lowercase). -/
def matchSize (target : Char) : Str → Bool
  | [] => false
  | [c] => c.toLower = target
  | c :: rest => (c.toLower = 'x') && matchSize target rest

/-- `Item::_build_tshirt_size` given the context list: test Small, then
Medium, then Large, first match wins. -/
def buildTshirtSizeOf (ctx : List Str) : Option TshirtSize :=
  if ctx.any (matchSize 's') then some .Small
  else if ctx.any (matchSize 'm') then some .Medium
  else if ctx.any (matchSize 'l') then some .Large
  else none

def buildTshirtSize (desc : Str) : Option TshirtSize :=
  buildTshirtSizeOf (buildContexts desc)

/-- The literal key strings used by the source. -/
def dueStr : Str := ['d', 'u', 'e']

def startStr : Str := ['s', 't', 'a', 'r', 't']

def dueColon : Str := ['d', 'u', 'e', ':']

def workStr : Str := ['w', 'o', 'r', 'k']

def schoolStr : Str := ['s', 'c', 'h', 'o', 'o', 'l']

/-- `Item::_build_due_date`. -/
def buildDueDate (desc : Str) : Option Date :=
  match kvGet desc dueStr with
  | some dd => parseDateStr dd
  | none => none

/-- `Item::_build_start_date`. -/
def buildStartDate (desc : Str) : Option Date :=
  match kvGet desc startStr with
  | some dd => parseDateStr dd
  | none => none

/-! ## The task record `Item`

The `FreezeBox` cache cells are modelled as `Option`-wrapped values: `none`
is an uninitialized cell, `some v` an initialized one.  Accessors that
lazily initialize a cell return the read value together with the updated
record (interior mutability made explicit). -/

structure Item where
  line_number : Nat
  completion : Bool
  priority : Char
  completion_date : Option Date
  creation_date : Option Date
  description : Str
  _importance : Option (Option Importance)
  _due_date : Option (Option Date)
  _start_date : Option (Option Date)
  _urgency : Option (Option Urgency)
  _tshirt_size : Option (Option TshirtSize)
  _tags : Option (List Str)
  _contexts : Option (List Str)
  _kv : Option (List (Str × Str))
deriving DecidableEq, Repr

/-- The NUL sentinel used by the source for "no priority". -/
def nulChar : Char := Char.ofNat 0

/-- `Item::new`. -/
def Item.new : Item :=
  { line_number := 0, completion := false, priority := nulChar,
    completion_date := none, creation_date := none, description := [],
    _importance := none, _due_date := none, _start_date := none,
    _urgency := none, _tshirt_size := none, _tags := none,
    _contexts := none, _kv := none }

/-- `Item::parse`: `none` models the `unwrap` panic on a non-matching line. -/
def Item.parse (text : Str) : Option Item :=
  (matchItem text).map fun caps =>
    { Item.new with
      completion := caps.cx.isSome,
      priority := match caps.cp with
        | some p => p
        | none => nulChar,
      completion_date :=
        if caps.c3.isSome ∧ caps.c4.isSome then parseDateStr (caps.c3.getD [])
        else none,
      creation_date :=
        if caps.c3.isSome ∧ caps.c4.isSome then parseDateStr (caps.c4.getD [])
        else if caps.c3.isSome then parseDateStr (caps.c3.getD [])
        else none,
      description := trimStr caps.c5 }

/-- `impl fmt::Display for Item`: file-ready single-line output. -/
def Item.display (i : Item) : Str :=
  (if i.completion then ['x', ' '] else [])
  ++ (if i.priority ≠ nulChar then '(' :: i.priority :: [')', ' '] else [])
  ++ (match i.completion, i.completion_date with
      | true, some d => formatDate d ++ [' ']
      | _, _ => [])
  ++ (match i.creation_date with
      | some d => formatDate d ++ [' ']
      | none => [])
  ++ i.description

/-- `impl Clone for Item`: raw fields are copied, caches start empty. -/
def Item.clone (i : Item) : Item :=
  { Item.new with
    line_number := i.line_number, completion := i.completion,
    priority := i.priority, completion_date := i.completion_date,
    creation_date := i.creation_date, description := i.description }

/-- `Item::set_completion`. -/
def Item.set_completion (i : Item) (x : Bool) : Item := { i with completion := x }

/-- `Item::set_priority`: note that, as in the source, no derived cache is
cleared. -/
def Item.set_priority (i : Item) (x : Char) : Item := { i with priority := x }

/-- `Item::set_completion_date`. -/
def Item.set_completion_date (i : Item) (x : Date) : Item :=
  { i with completion_date := some x }

/-- `Item::set_creation_date`. -/
def Item.set_creation_date (i : Item) (x : Date) : Item :=
  { i with creation_date := some x }

/-- `Item::set_description`: resets exactly the caches the source resets
(`_start_date` is not among them). -/
def Item.set_description (i : Item) (x : Str) : Item :=
  { i with
    _importance := none, _due_date := none, _urgency := none,
    _tshirt_size := none, _tags := none, _contexts := none, _kv := none,
    description := x }

/-- `Item::importance` (lazy read through the `_importance` cache). -/
def Item.importance (i : Item) : Option Importance × Item :=
  match i._importance with
  | some v => (v, i)
  | none =>
    let v := Importance.from_char i.priority
    (v, { i with _importance := some v })

/-- `Item::due_date`. -/
def Item.due_date (i : Item) : Option Date × Item :=
  match i._due_date with
  | some v => (v, i)
  | none =>
    let v := buildDueDate i.description
    (v, { i with _due_date := some v })

/-- `Item::start_date`. -/
def Item.start_date (i : Item) : Option Date × Item :=
  match i._start_date with
  | some v => (v, i)
  | none =>
    let v := buildStartDate i.description
    (v, { i with _start_date := some v })

/-- `Item::urgency` (built from `due_date`, which is read through its own
cache). -/
def Item.urgency (i : Item) (today : Date) : Option Urgency × Item :=
  match i._urgency with
  | some v => (v, i)
  | none =>
    let dd := i.due_date
    let v := dd.1.map (Urgency.from_due_date today)
    (v, { dd.2 with _urgency := some v })

/-- `Item::tshirt_size`. -/
def Item.tshirt_size (i : Item) : Option TshirtSize × Item :=
  match i._tshirt_size with
  | some v => (v, i)
  | none =>
    let v := buildTshirtSize i.description
    (v, { i with _tshirt_size := some v })

/-- `Item::tags`. -/
def Item.tags (i : Item) : List Str × Item :=
  match i._tags with
  | some v => (v, i)
  | none =>
    let v := buildTags i.description
    (v, { i with _tags := some v })

/-- `Item::contexts`. -/
def Item.contexts (i : Item) : List Str × Item :=
  match i._contexts with
  | some v => (v, i)
  | none =>
    let v := buildContexts i.description
    (v, { i with _contexts := some v })

/-- `Item::kv` (as the insertion list backing the `HashMap`). -/
def Item.kv (i : Item) : List (Str × Str) × Item :=
  match i._kv with
  | some v => (v, i)
  | none =>
    let v := scanKV i.description
    (v, { i with _kv := some v })

/-- Lookup in the `HashMap` built from the scanned pairs: the value of the
last insertion of the key wins. -/
def kvLookup (pairs : List (Str × Str)) (k : Str) : Option Str :=
  pairs.foldl (fun acc pr => if pr.1 = k then some pr.2 else acc) none

def lowerStr (s : Str) : Str := s.map Char.toLower

/-- Strip one leading `@` from a context argument (`Item::has_context`). -/
def stripAt (ctx : Str) : Str :=
  match ctx with
  | '@' :: r => r
  | _ => ctx

/-- `Item::has_context`. -/
def Item.has_context (i : Item) (ctx : Str) : Bool × Item :=
  let real := lowerStr (stripAt ctx)
  let cs := i.contexts
  (cs.1.any fun c => lowerStr c = real, cs.2)

/-- `Item::but_done`. -/
def Item.but_done (i : Item) (include_date : Bool) (today : Date) : Item :=
  let j := (i.clone).set_completion true
  if include_date then
    let j := j.set_completion_date today
    if j.creation_date = none then j.set_creation_date today else j
  else j

/-! ## `Item::set_urgency` -/

/-- Whether `pat` is an initial segment of `s`. -/
def startsWith : Str → Str → Bool
  | _, [] => true
  | [], _ :: _ => false
  | c :: t, p :: q => c == p && startsWith t q

/-- A successful `startsWith` bounds the pattern length. -/
theorem startsWithLen (s pat : Str) (h : startsWith s pat = true) :
    pat.length ≤ s.length := by
  induction pat generalizing s with
  | nil => simp
  | cons p q ih =>
    match s, h with
    | c :: t, hw =>
      simp only [startsWith, Bool.and_eq_true] at hw
      simpa using ih t hw.2

/-- `str::replace`: replace all non-overlapping occurrences of `pat`,
scanning left to right, with character-count fuel.  (The source only calls
it with nonempty patterns.) -/
def replaceAllF : Nat → Str → Str → Str → Str
  | 0, s, _, _ => s
  | fuel + 1, s, pat, rep =>
    if startsWith s pat ∧ pat ≠ [] then
      rep ++ replaceAllF fuel (s.drop pat.length) pat rep
    else match s with
      | [] => []
      | c :: t => c :: replaceAllF fuel t pat rep

def replaceAll (s pat rep : Str) : Str := replaceAllF s.length s pat rep

/-- The target date the source computes for each requested urgency. -/
def urgTargetDate (today : Date) : Urgency → Date
  | .Overdue => predDate today
  | .Today => today
  | .Soon => dateSoon today
  | .ThisWeek => dateWeekend today
  | .NextWeek => dateNextWeekend today
  | .NextMonth => dateNextMonth today
  | .Later => addDays today 183

/-- The source's weekend shift: `match format("%u") { "6" => pred, "7" =>
pred.pred, _ => d }`. -/
def weekendAdjust (d : Date) : Date :=
  if isoWeekday d = 6 then predDate d
  else if isoWeekday d = 7 then predDate (predDate d)
  else d

/-- The source's short-circuit evaluation of
`urg > Urgency::Today && (has_context("work") || has_context("school"))`
(each `has_context` call may initialize the `_contexts` cache). -/
def setUrgCond (i : Item) (urg : Urgency) : Bool × Item :=
  if urgLt Urgency.Today urg then
    let w := i.has_context workStr
    if w.1 then (true, w.2) else w.2.has_context schoolStr
  else (false, i)

/-- `Item::set_urgency`. -/
def Item.set_urgency (i : Item) (urg : Urgency) (today : Date) : Item :=
  let cnd := setUrgCond i urg
  let d := if cnd.1 then weekendAdjust (urgTargetDate today urg)
           else urgTargetDate today urg
  let kvp := cnd.2.kv
  match kvLookup kvp.1 dueStr with
  | some v =>
    kvp.2.set_description
      (replaceAll kvp.2.description (dueColon ++ v) (dueColon ++ formatDate d))
  | none =>
    kvp.2.set_description (kvp.2.description ++ ' ' :: (dueColon ++ formatDate d))

/-! ## Calendar lemmas -/

theorem dle_refl (a : Date) : dle a a := by unfold dle; omega

theorem dle_trans {a b c : Date} (h1 : dle a b) (h2 : dle b c) : dle a c := by
  unfold dle at *; omega

theorem dlt_of_dle_of_dlt {a b c : Date} (h1 : dle a b) (h2 : dlt b c) :
    dlt a c := by
  unfold dle dlt at *; omega

theorem dle_of_dlt {a b : Date} (h : dlt a b) : dle a b := by
  unfold dle dlt at *; omega

theorem not_dle_of_dlt {a b : Date} (h : dlt b a) : ¬ dle a b := by
  unfold dle dlt at *; omega

theorem ne_of_dlt {a b : Date} (h : dlt b a) : a ≠ b := by
  intro he; subst he; unfold dlt at h; omega

theorem dlt_succDate (d : Date) : dlt d (succDate d) := by
  obtain ⟨y, m, dd⟩ := d
  unfold succDate dlt
  split
  · simp
  split
  · simp
  · simp

theorem succDate_valid {d : Date} (h : d.Valid) : (succDate d).Valid := by
  obtain ⟨y, m, dd⟩ := d
  obtain ⟨h1, h2, h3, h4⟩ := h
  simp only [Date.Valid, Date_mk_y, Date_mk_m, Date_mk_d] at *
  unfold succDate
  split
  · rename_i hl
    simp only [Date_mk_y, Date_mk_m, Date_mk_d] at hl
    simp only [Date.Valid, Date_mk_y, Date_mk_m, Date_mk_d]
    exact ⟨h1, h2, by omega, by omega⟩
  rename_i hge
  simp only [Date_mk_y, Date_mk_m, Date_mk_d] at hge
  split
  · rename_i hm
    simp only [Date_mk_m] at hm
    simp only [Date.Valid, Date_mk_y, Date_mk_m, Date_mk_d]
    refine ⟨by omega, by omega, by omega, ?_⟩
    unfold daysInMonth monthLength
    cases isLeapYear y <;> interval_cases m <;> simp
  · rename_i hm
    simp only [Date_mk_m] at hm
    simp only [Date.Valid, Date_mk_y, Date_mk_m, Date_mk_d]
    refine ⟨by omega, by omega, by omega, ?_⟩
    unfold daysInMonth monthLength
    cases isLeapYear (y + 1) <;> simp

theorem predDate_valid {d : Date} (h : d.Valid) : (predDate d).Valid := by
  obtain ⟨y, m, dd⟩ := d
  obtain ⟨h1, h2, h3, h4⟩ := h
  simp only [Date.Valid, Date_mk_y, Date_mk_m, Date_mk_d] at *
  unfold predDate
  split
  · rename_i hl
    simp only [Date_mk_y, Date_mk_m, Date_mk_d] at hl
    simp only [Date.Valid, Date_mk_y, Date_mk_m, Date_mk_d]
    exact ⟨h1, h2, by omega, by omega⟩
  rename_i hge
  simp only [Date_mk_d] at hge
  split
  · rename_i hm
    simp only [Date_mk_m] at hm
    simp only [Date.Valid, Date_mk_y, Date_mk_m, Date_mk_d]
    refine ⟨by omega, by omega, ?_, by omega⟩
    unfold daysInMonth monthLength
    cases isLeapYear y <;> interval_cases m <;> simp
  · rename_i hm
    simp only [Date_mk_m] at hm
    simp only [Date.Valid, Date_mk_y, Date_mk_m, Date_mk_d]
    refine ⟨by omega, by omega, by omega, ?_⟩
    unfold daysInMonth monthLength
    cases isLeapYear (y - 1) <;> simp

theorem addDays_add (d : Date) (a b : Nat) :
    addDays d (a + b) = addDays (addDays d a) b := by
  induction b with
  | zero => rfl
  | succ n ih => rw [← Nat.add_assoc]; simp [addDays, ih]

theorem dle_addDays (d : Date) (n : Nat) : dle d (addDays d n) := by
  induction n with
  | zero => exact dle_refl d
  | succ n ih =>
    exact dle_trans ih (dle_of_dlt (by simpa [addDays] using dlt_succDate (addDays d n)))

theorem addDays_valid {d : Date} (h : d.Valid) (n : Nat) :
    (addDays d n).Valid := by
  induction n with
  | zero => exact h
  | succ n ih => exact succDate_valid ih

theorem addDays_le_addDays (d : Date) {a b : Nat} (h : a ≤ b) :
    dle (addDays d a) (addDays d b) := by
  have hb : b = a + (b - a) := by omega
  rw [hb, addDays_add]
  exact dle_addDays _ _

theorem daysBeforeMonth_step (leap : Bool) (m : Nat) (h1 : 1 ≤ m)
    (h2 : m ≤ 11) :
    daysBeforeMonth leap (m + 1) = daysBeforeMonth leap m + monthLength leap m := by
  interval_cases m <;> cases leap <;> decide

theorem monthLength_twelve (leap : Bool) : monthLength leap 12 = 31 := by
  cases leap <;> decide

theorem isLeapYear_arith (y : Nat) :
    (isLeapYear y = true → (y % 4 = 0 ∧ y % 100 ≠ 0) ∨ y % 400 = 0) ∧
    (isLeapYear y = false → ¬((y % 4 = 0 ∧ y % 100 ≠ 0) ∨ y % 400 = 0)) := by
  unfold isLeapYear
  constructor <;> intro h <;>
    simp only [Bool.or_eq_true, Bool.and_eq_true, beq_iff_eq, bne_iff_ne,
      ne_eq, Bool.or_eq_false_iff, Bool.and_eq_false_iff, Bool.not_eq_true,
      beq_eq_false_iff_ne, bne_eq_false_iff_eq] at h <;> tauto

theorem rataDie_succ {d : Date} (h : d.Valid) (hy : 1 ≤ d.y) :
    rataDie (succDate d) = rataDie d + 1 := by
  obtain ⟨y, m, dd⟩ := d
  obtain ⟨h1, h2, h3, h4⟩ := h
  simp only [Date.Valid, Date_mk_y, Date_mk_m, Date_mk_d] at h1 h2 h3 h4 hy
  unfold succDate
  split
  · simp only [rataDie, Date_mk_y, Date_mk_m, Date_mk_d]
    omega
  rename_i hge
  simp only [Date_mk_y, Date_mk_m, Date_mk_d] at hge
  split
  · rename_i hm
    simp only [Date_mk_m] at hm
    have hstep := daysBeforeMonth_step (isLeapYear y) m h1 (by omega)
    have hdim : dd = daysInMonth y m := by omega
    simp only [rataDie, Date_mk_y, Date_mk_m, Date_mk_d]
    rw [hstep]
    unfold daysInMonth at hdim
    omega
  · rename_i hm
    simp only [Date_mk_m] at hm
    have hm12 : m = 12 := by omega
    subst hm12
    have hd31 : dd = 31 := by
      have h31 := monthLength_twelve (isLeapYear y)
      unfold daysInMonth at h4 hge
      omega
    subst hd31
    cases hl : isLeapYear y with
    | false =>
      have hf := (isLeapYear_arith y).2 hl
      simp only [rataDie, Date_mk_y, Date_mk_m, Date_mk_d, hl,
        daysBeforeMonth, Bool.false_eq_true, if_false]
      omega
    | true =>
      have ht := (isLeapYear_arith y).1 hl
      simp only [rataDie, Date_mk_y, Date_mk_m, Date_mk_d, hl,
        daysBeforeMonth, if_true]
      omega

theorem succ_predDate {d : Date} (h : d.Valid) (hy : 1 ≤ d.y) :
    succDate (predDate d) = d := by
  obtain ⟨y, m, dd⟩ := d
  obtain ⟨h1, h2, h3, h4⟩ := h
  simp only [Date.Valid, Date_mk_y, Date_mk_m, Date_mk_d] at h1 h2 h3 h4 hy
  unfold predDate
  split
  · rename_i hl
    simp only [Date_mk_d] at hl
    unfold succDate
    split
    · rename_i hc
      simp only [Date_mk_y, Date_mk_m, Date_mk_d] at hc ⊢
      rw [Date.mk.injEq]
      omega
    · rename_i hc
      simp only [Date_mk_y, Date_mk_m, Date_mk_d] at hc
      omega
  rename_i hge
  simp only [Date_mk_d] at hge
  split
  · rename_i hm
    simp only [Date_mk_m] at hm
    unfold succDate
    split
    · rename_i hc
      simp only [Date_mk_y, Date_mk_m, Date_mk_d] at hc
      omega
    split
    · rename_i hc
      simp only [Date_mk_y, Date_mk_m, Date_mk_d] at hc ⊢
      rw [Date.mk.injEq]
      omega
    · rename_i hc hc2
      simp only [Date_mk_y, Date_mk_m, Date_mk_d] at hc2
      omega
  · rename_i hm
    simp only [Date_mk_m] at hm
    have hm1 : m = 1 := by omega
    have hd1 : dd = 1 := by omega
    subst hm1 hd1
    have h31 : daysInMonth (y - 1) 12 = 31 := by
      unfold daysInMonth; exact monthLength_twelve _
    unfold succDate
    split
    · rename_i hc
      simp only [Date_mk_y, Date_mk_m, Date_mk_d] at hc
      omega
    split
    · rename_i hc hc2
      simp only [Date_mk_y, Date_mk_m, Date_mk_d] at hc2
      omega
    · simp only [Date_mk_y, Date_mk_m, Date_mk_d] at *
      rw [Date.mk.injEq]
      omega

theorem predDate_y (d : Date) : d.y ≤ (predDate d).y + 1 ∧ (predDate d).y ≤ d.y := by
  obtain ⟨y, m, dd⟩ := d
  unfold predDate
  split
  · simp
  split
  · simp
  · simp only [Date_mk_y]
    omega

theorem rataDie_pred {d : Date} (h : d.Valid) (hy : 2 ≤ d.y) :
    rataDie d = rataDie (predDate d) + 1 := by
  have hpv : (predDate d).Valid := predDate_valid h
  have hpy : 1 ≤ (predDate d).y := by
    have := predDate_y d; omega
  have hr := rataDie_succ hpv hpy
  rw [succ_predDate h (by omega)] at hr
  omega

theorem rataDie_pos {d : Date} (h : d.Valid) : 1 ≤ rataDie d := by
  obtain ⟨y, m, dd⟩ := d
  obtain ⟨h1, h2, h3, h4⟩ := h
  simp only [Date.Valid, Date_mk_y, Date_mk_m, Date_mk_d] at h3
  unfold rataDie
  simp only [Date_mk_y, Date_mk_m, Date_mk_d]
  omega

/-! ## Matcher lemmas -/

theorem findSome?_none_forall {α β : Type} (f : α → Option β) (l : List α)
    (h : l.findSome? f = none) : ∀ a ∈ l, f a = none := by
  induction l with
  | nil => intro a ha; cases ha
  | cons x t ih =>
    intro a ha
    rw [List.findSome?_cons] at h
    cases hfx : f x with
    | some b => rw [hfx] at h; cases h
    | none =>
      rw [hfx] at h
      rw [List.mem_cons] at ha
      rcases ha with rfl | ha
      · exact hfx
      · exact ih h a ha

/-- The skip candidate is always among a group's candidates. -/
theorem groupOpts_skip_mem {α : Type} (rd : Str → Option (α × Str)) (s : Str) :
    (none, s) ∈ groupOpts rd s := by
  unfold groupOpts
  cases rd s with
  | none => simp
  | some pr =>
    simp only []
    split
    · simp
    · simp

/-- A group whose token does not match only offers the skip candidate. -/
theorem groupOpts_skip_none {α : Type} (rd : Str → Option (α × Str)) (s : Str)
    (h : rd s = none) : groupOpts rd s = [(none, s)] := by
  unfold groupOpts
  rw [h]

/-- A group whose token is not followed by whitespace only offers the skip
candidate. -/
theorem groupOpts_skip_nows {α : Type} (rd : Str → Option (α × Str)) {s : Str}
    {a : α} {rest : Str} (h : rd s = some (a, rest))
    (hw : rest.takeWhile isWs = []) : groupOpts rd s = [(none, s)] := by
  unfold groupOpts
  rw [h]
  simp [hw]

/-- Combined form of the two skip lemmas. -/
theorem groupOpts_skip_cases {α : Type} (rd : Str → Option (α × Str)) {s : Str}
    (h : rd s = none ∨
      ∃ a rest, rd s = some (a, rest) ∧ rest.takeWhile isWs = []) :
    groupOpts rd s = [(none, s)] := by
  rcases h with h | ⟨a, rest, h, hw⟩
  · exact groupOpts_skip_none rd s h
  · exact groupOpts_skip_nows rd h hw

/-- A group whose token matches and is followed by exactly one whitespace
character offers the consuming candidate first. -/
theorem groupOpts_tok {α : Type} (rd : Str → Option (α × Str)) {s t : Str}
    {a : α} (hrd : rd s = some (a, ' ' :: t))
    (ht : t.takeWhile isWs = []) :
    groupOpts rd s = [(some a, t), (none, s)] := by
  have hsp : isWs ' ' = true := by decide
  have htw : (' ' :: t).takeWhile isWs = [' '] := by
    rw [List.takeWhile_cons, hsp]
    simp [ht]
  unfold groupOpts
  rw [hrd]
  simp only [htw]
  simp [List.range_succ]

/-- Whether an optional group would consume a prefix of `s` (token match
followed by at least one whitespace character). -/
def grabX (s : Str) : Bool :=
  match readX s with
  | some pr => !(pr.2.takeWhile isWs).isEmpty
  | none => false

def grabPrio (s : Str) : Bool :=
  match readPrio s with
  | some pr => !(pr.2.takeWhile isWs).isEmpty
  | none => false

def grabDate (s : Str) : Bool :=
  match readDate s with
  | some pr => !(pr.2.takeWhile isWs).isEmpty
  | none => false

/-! ## Totality of parsing (claims C6 and C10) -/

/-- Helper: the all-groups-skipped candidate of the matcher fails only when
the description group fails. -/
theorem matchItem_none_descOk {s : Str} (hm : matchItem s = none) :
    descOk s = false := by
  have h1 : tryG2 none s = none := by
    have := findSome?_none_forall _ _ hm (none, s) (groupOpts_skip_mem readX s)
    exact this
  have h2 : tryG3 none none s = none := by
    unfold tryG2 at h1
    have := findSome?_none_forall _ _ h1 (none, s) (groupOpts_skip_mem readPrio s)
    exact this
  have h3 : tryG4 none none none s = none := by
    unfold tryG3 at h2
    have := findSome?_none_forall _ _ h2 (none, s) (groupOpts_skip_mem readDate s)
    exact this
  have h4 : tryDesc none none none none s = none := by
    unfold tryG4 at h3
    have := findSome?_none_forall _ _ h3 (none, s) (groupOpts_skip_mem readDate s)
    exact this
  unfold tryDesc at h4
  cases hdo : descOk s with
  | false => rfl
  | true => rw [if_pos hdo] at h4; cases h4

/-- C6: for every non-empty single line of text (no embedded newline
characters), `Item::parse` returns some record and never fails: the unwrap
of the item regex match cannot fail under this precondition, so parsing a
non-blank, non-comment line is a total operation. -/
theorem C6_parse_total (s : Str) (hne : s ≠ []) (hnl : ∀ c ∈ s, c ≠ '\n') :
    (Item.parse s).isSome := by
  cases hm : matchItem s with
  | some caps => simp [Item.parse, hm]
  | none =>
    exfalso
    have hdo := matchItem_none_descOk hm
    rw [descOk, Bool.and_eq_false_iff] at hdo
    rcases hdo with hdo | hdo
    · have : s.isEmpty = true := by
        cases hie : s.isEmpty
        · rw [hie] at hdo; cases hdo
        · rfl
      rw [List.isEmpty_iff] at this
      exact hne this
    · rw [List.all_eq_false] at hdo
      obtain ⟨c, hc, hceq⟩ := hdo
      apply hnl c hc
      simpa using hceq

/-- Witness for C6 at the concrete line `"a"`. -/
theorem C6_parse_total_witness :
    (("a".data : Str) ≠ [] ∧ (∀ c ∈ ("a".data : Str), c ≠ '\n')) ∧
    (Item.parse ("a".data)).isSome :=
  ⟨⟨by decide, by decide⟩, C6_parse_total ("a".data) (by decide) (by decide)⟩

/-- C10: `Item::parse` has no result for the empty input: on the empty
string the item regex (whose description group requires at least one
character) has no match and the unwrap panics, so the documented
precondition that the input line is non-blank is necessary for parse to
produce a record. -/
theorem C10_parse_empty : Item.parse [] = none := by decide

/-! ## Date-slot disambiguation (claims C5 and C4) -/

/-- C5: in `Item::parse`, when both positional date slots match, the first
date becomes `completion_date` and the second becomes `creation_date`; when
only the first slot matches, that lone date becomes `creation_date` and
`completion_date` is none.  In particular,
`"x (B) 2010-01-01 2000-12-31 foo bar baz"` parses to completion, priority
`B`, completion date 2010-01-01, creation date 2000-12-31 and description
`"foo bar baz"`, and `"2010-01-01 (A) foo bar baz"` parses to an incomplete
record with no priority, no completion date, creation date 2010-01-01 and
description `"(A) foo bar baz"`. -/
theorem C5_date_slots (s : Str) (caps : RawCaps) (j : Item)
    (hm : matchItem s = some caps) (hj : Item.parse s = some j) :
    ((caps.c3.isSome → caps.c4.isSome →
      j.completion_date = parseDateStr (caps.c3.getD []) ∧
      j.creation_date = parseDateStr (caps.c4.getD [])) ∧
     (caps.c3.isSome → caps.c4 = none →
      j.completion_date = none ∧
      j.creation_date = parseDateStr (caps.c3.getD []))) ∧
    Item.parse ("x (B) 2010-01-01 2000-12-31 foo bar baz".data) =
      some { Item.new with
        completion := true, priority := 'B',
        completion_date := some ⟨2010, 1, 1⟩,
        creation_date := some ⟨2000, 12, 31⟩,
        description := "foo bar baz".data } ∧
    Item.parse ("2010-01-01 (A) foo bar baz".data) =
      some { Item.new with
        creation_date := some ⟨2010, 1, 1⟩,
        description := "(A) foo bar baz".data } := by
  refine ⟨⟨?_, ?_⟩, by decide, by decide⟩
  · intro h3 h4
    unfold Item.parse at hj
    rw [hm, Option.map_some'] at hj
    have hj2 := Option.some.inj hj
    subst hj2
    simp [h3, h4]
  · intro h3 h4
    unfold Item.parse at hj
    rw [hm, Option.map_some'] at hj
    have hj2 := Option.some.inj hj
    subst hj2
    simp [h3, h4]

/-- Witness for C5 at the first concrete example line. -/
theorem C5_date_slots_witness :
    ∃ caps j,
      matchItem ("x (B) 2010-01-01 2000-12-31 foo bar baz".data) = some caps ∧
      Item.parse ("x (B) 2010-01-01 2000-12-31 foo bar baz".data) = some j ∧
      (caps.c3.isSome → caps.c4.isSome →
        j.completion_date = parseDateStr (caps.c3.getD []) ∧
        j.creation_date = parseDateStr (caps.c4.getD [])) := by
  have hm : matchItem ("x (B) 2010-01-01 2000-12-31 foo bar baz".data) =
      some ⟨some (), some 'B', some ("2010-01-01".data),
        some ("2000-12-31".data), "foo bar baz".data⟩ := by decide
  have hp : Item.parse ("x (B) 2010-01-01 2000-12-31 foo bar baz".data) =
      some { Item.new with
        completion := true, priority := 'B',
        completion_date := some ⟨2010, 1, 1⟩,
        creation_date := some ⟨2000, 12, 31⟩,
        description := "foo bar baz".data } := by decide
  exact ⟨_, _, hm, hp, (C5_date_slots _ _ _ hm hp).1.1⟩

/-- Counterexample for C4: in `"x 2010-13-99 foo"` the shape-valid but
calendar-invalid date token is consumed by the positional slot — the date
field is none, but the token is dropped: the description is `"foo"`, not
`"2010-13-99 foo"`. -/
theorem C4_counterexample :
    (Item.parse ("x 2010-13-99 foo".data)).map (fun j => j.description) =
      some ("foo".data) ∧
    (Item.parse ("x 2010-13-99 foo".data)).map (fun j => j.creation_date) =
      some none ∧
    (Item.parse ("x 2010-13-99 foo".data)).map (fun j => j.completion_date) =
      some none ∧
    ("foo".data : Str) ≠ "2010-13-99 foo".data := by decide

/-- C4 (amended): for every input line in which a positional date token
matches the digit shape but fails to parse as a valid calendar date, the
corresponding date field of the parsed record is none; the malformed text,
however, does not fall through into the description — the slot consumes it,
and the description is the trimmed remainder captured by the description
group (as in the concrete example `"x 2010-13-99 foo"`, whose description
is `"foo"`). -/
theorem C4_amended (s : Str) (caps : RawCaps) (j : Item) (t : Str)
    (hm : matchItem s = some caps) (hj : Item.parse s = some j)
    (h3 : caps.c3 = some t) (hbad : parseDateStr t = none) :
    ((caps.c4 = none → j.completion_date = none ∧ j.creation_date = none) ∧
     (∀ u, caps.c4 = some u → j.completion_date = none ∧
        j.creation_date = parseDateStr u) ∧
     j.description = trimStr caps.c5) ∧
    Item.parse ("x 2010-13-99 foo".data) =
      some { Item.new with completion := true, description := "foo".data } := by
  refine ⟨?_, by decide⟩
  unfold Item.parse at hj
  rw [hm, Option.map_some'] at hj
  have hj2 := Option.some.inj hj
  subst hj2
  refine ⟨?_, ?_, by simp⟩
  · intro h4
    simp [h3, h4, hbad]
  · intro u h4
    simp [h3, h4, hbad]

/-- Witness for C4 at the concrete malformed-date line. -/
theorem C4_amended_witness :
    ∃ caps j,
      matchItem ("x 2010-13-99 foo".data) = some caps ∧
      Item.parse ("x 2010-13-99 foo".data) = some j ∧
      caps.c3 = some ("2010-13-99".data) ∧
      parseDateStr ("2010-13-99".data) = none ∧
      (caps.c4 = none → j.completion_date = none ∧ j.creation_date = none) := by
  have hm : matchItem ("x 2010-13-99 foo".data) =
      some ⟨some (), none, some ("2010-13-99".data), none, "foo".data⟩ := by
    decide
  have hp : Item.parse ("x 2010-13-99 foo".data) =
      some { Item.new with completion := true, description := "foo".data } := by
    decide
  exact ⟨_, _, hm, hp, rfl, by decide,
    (C4_amended _ _ _ _ hm hp rfl (by decide)).1.1⟩

/-! ## `but_done`, t-shirt sizes, cache staleness (claims C9, C8, C2) -/

/-- C9: `but_done` returns a new record (the receiver, a pure value here, is
unchanged); the result has completion true, and when the date-stamping flag
is set it additionally has completion date today and, only if the
receiver's creation date was none, creation date today — an existing
creation date is never overwritten — while priority, description and the
other raw fields are unchanged from the receiver. -/
theorem C9_but_done (i : Item) (b : Bool) (today : Date) :
    (i.but_done b today).completion = true ∧
    (i.but_done b today).priority = i.priority ∧
    (i.but_done b today).description = i.description ∧
    (i.but_done b today).line_number = i.line_number ∧
    (i.but_done b today).completion_date =
      (if b then some today else i.completion_date) ∧
    (i.but_done b today).creation_date =
      (if b ∧ i.creation_date = none then some today else i.creation_date) := by
  unfold Item.but_done Item.clone Item.set_completion Item.set_completion_date
    Item.set_creation_date
  cases b
  · simp
  · by_cases hc : i.creation_date = none
    · simp [hc]
    · simp [hc]

/-- C8: `tshirt_size` tests every context string case-insensitively against
the three patterns `X*S`, `X*M`, `X*L` in that fixed order (Small, then
Medium, then Large) and returns the size of the first pattern that some
context matches, or none if no context matches any pattern; in particular,
for every description containing both an `@S` and an `@L` context (and no
`@M`), the result is Small, never Large. -/
theorem C8_size_order (i : Item) (hcache : i._tshirt_size = none) :
    ((buildContexts i.description).any (matchSize 's') = true →
      (i.tshirt_size).1 = some .Small) ∧
    ((buildContexts i.description).any (matchSize 's') = false →
      (buildContexts i.description).any (matchSize 'm') = true →
      (i.tshirt_size).1 = some .Medium) ∧
    ((buildContexts i.description).any (matchSize 's') = false →
      (buildContexts i.description).any (matchSize 'm') = false →
      (buildContexts i.description).any (matchSize 'l') = true →
      (i.tshirt_size).1 = some .Large) ∧
    ((buildContexts i.description).any (matchSize 's') = false →
      (buildContexts i.description).any (matchSize 'm') = false →
      (buildContexts i.description).any (matchSize 'l') = false →
      (i.tshirt_size).1 = none) ∧
    (("S".data : Str) ∈ buildContexts i.description →
      ("L".data : Str) ∈ buildContexts i.description →
      ("M".data : Str) ∉ buildContexts i.description →
      (i.tshirt_size).1 = some .Small ∧ (i.tshirt_size).1 ≠ some .Large) := by
  have hts : (i.tshirt_size).1 = buildTshirtSize i.description := by
    unfold Item.tshirt_size
    rw [hcache]
  rw [hts]
  unfold buildTshirtSize buildTshirtSizeOf
  refine ⟨?_, ?_, ?_, ?_, ?_⟩
  · intro h1; rw [if_pos h1]
  · intro h1 h2; rw [if_neg (by simp [h1]), if_pos h2]
  · intro h1 h2 h3; rw [if_neg (by simp [h1]), if_neg (by simp [h2]), if_pos h3]
  · intro h1 h2 h3; rw [if_neg (by simp [h1]), if_neg (by simp [h2]),
      if_neg (by simp [h3])]
  · intro hS hL hM
    have h1 : (buildContexts i.description).any (matchSize 's') = true := by
      rw [List.any_eq_true]
      exact ⟨_, hS, by decide⟩
    rw [if_pos h1]
    exact ⟨rfl, by simp⟩

/-- Witness for C8 on the parsed line `"foo @S bar @L"`. -/
theorem C8_size_order_witness :
    (((Item.parse ("foo @S bar @L".data)).getD Item.new)._tshirt_size = none ∧
     ("S".data : Str) ∈
       buildContexts ((Item.parse ("foo @S bar @L".data)).getD Item.new).description ∧
     ("L".data : Str) ∈
       buildContexts ((Item.parse ("foo @S bar @L".data)).getD Item.new).description ∧
     ("M".data : Str) ∉
       buildContexts ((Item.parse ("foo @S bar @L".data)).getD Item.new).description) ∧
    (((Item.parse ("foo @S bar @L".data)).getD Item.new).tshirt_size).1 =
      some .Small :=
  ⟨⟨by decide, by decide, by decide, by decide⟩,
    ((C8_size_order ((Item.parse ("foo @S bar @L".data)).getD Item.new)
      (by decide)).2.2.2.2 (by decide) (by decide) (by decide)).1⟩

/-- C2 (falsified by the code): after `start_date()` initializes its cache,
`set_description` — which the source does not make clear `_start_date` —
leaves a stale start date observable; likewise `set_priority` clears no
cache, so a previously computed `importance()` survives a priority change.
This theorem evaluates the code at the failing inputs. -/
theorem C2_stale_caches :
    (let i0 := (Item.parse ("foo start:2030-01-01".data)).getD Item.new
     let i2 := (i0.start_date).2.set_description ("bar".data)
     (i2.start_date).1 = some ⟨2030, 1, 1⟩ ∧
       buildStartDate ("bar".data) = none ∧
       i2.description = "bar".data) ∧
    (let j0 := { Item.new with priority := 'A' }
     let j2 := (j0.importance).2.set_priority 'E'
     (j2.importance).1 = some .A ∧
       Importance.from_char 'E' = some .E ∧
       j2.priority = 'E') := by
  exact ⟨⟨by decide, by decide, by decide⟩, ⟨by decide, by decide, by decide⟩⟩

/-! ## Urgency boundaries (claim C3) -/

theorem dlt_asymm {a b : Date} (h : dlt a b) : ¬ dlt b a := by
  unfold dlt at *; omega

theorem isoWeekday_range (d : Date) :
    1 ≤ isoWeekday d ∧ isoWeekday d ≤ 7 := by
  unfold isoWeekday; omega

/-- Classification of due dates beyond the next weekend: `NextMonth` up to
and including the `DATE_NEXT_MONTH` boundary, `Later` after it. -/
theorem from_due_date_late (today due : Date)
    (hlt : dlt (dateNextWeekend today) due) :
    (dle due (dateNextMonth today) →
      Urgency.from_due_date today due = .NextMonth) ∧
    (¬ dle due (dateNextMonth today) →
      Urgency.from_due_date today due = .Later) := by
  have hw7 := isoWeekday_range today
  have hnw : dateNextWeekend today = addDays today (7 - isoWeekday today + 7) := by
    unfold dateNextWeekend dateWeekend
    rw [← addDays_add]
  have htd : dle today (dateNextWeekend today) := by
    rw [hnw]; exact dle_addDays _ _
  have hsoon : dle (dateSoon today) (dateNextWeekend today) := by
    rw [hnw]
    exact addDays_le_addDays today (by omega)
  have hwk : dle (dateWeekend today) (dateNextWeekend today) := by
    unfold dateNextWeekend
    exact dle_addDays _ _
  have h1 : ¬ dlt due today :=
    dlt_asymm (dlt_of_dle_of_dlt htd hlt)
  have h2 : due ≠ today := ne_of_dlt (dlt_of_dle_of_dlt htd hlt)
  have h3 : ¬ dle due (dateSoon today) :=
    not_dle_of_dlt (dlt_of_dle_of_dlt hsoon hlt)
  have h4 : ¬ dle due (dateWeekend today) :=
    not_dle_of_dlt (dlt_of_dle_of_dlt hwk hlt)
  have h5 : ¬ dle due (dateNextWeekend today) := not_dle_of_dlt hlt
  constructor
  · intro h6
    unfold Urgency.from_due_date
    rw [if_neg h1, if_neg h2, if_neg h3, if_neg h4, if_neg h5, if_pos h6]
  · intro h6
    unfold Urgency.from_due_date
    rw [if_neg h1, if_neg h2, if_neg h3, if_neg h4, if_neg h5, if_neg h6]

/-- Counterexample for C3: with today = 2023-11-15 (November), the code's
`DATE_NEXT_MONTH` is 2023-12-31, not the last day of January of the next
year; the due date 2024-01-15 — after the end of next week and on or before
2024-01-31 — is classified `Later`, not `NextMonth`. -/
theorem C3_counterexample :
    Urgency.from_due_date ⟨2023, 11, 15⟩ ⟨2024, 1, 15⟩ = Urgency.Later ∧
    dlt (dateNextWeekend ⟨2023, 11, 15⟩) ⟨2024, 1, 15⟩ ∧
    dle ⟨2024, 1, 15⟩ ⟨2024, 1, 31⟩ ∧
    dateNextMonth ⟨2023, 11, 15⟩ = ⟨2023, 12, 31⟩ ∧
    dateNextMonth ⟨2023, 11, 15⟩ ≠ ⟨2024, 1, 31⟩ := by decide

/-- C3 (amended): when the fixed today snapshot falls in November, the
upper boundary of the NextMonth urgency is December 31 of the **same**
year (the last day of the month after the current one), and when today
falls in December it is January 31 of the next year; every due date after
the end of next week and on or before that boundary is classified
NextMonth, and every later due date is classified Later. -/
theorem C3_amended (today : Date) :
    (today.m = 11 →
      dateNextMonth today = ⟨today.y, 12, 31⟩ ∧
      ∀ due, dlt (dateNextWeekend today) due →
        ((dle due (⟨today.y, 12, 31⟩ : Date) →
            Urgency.from_due_date today due = .NextMonth) ∧
         (¬ dle due (⟨today.y, 12, 31⟩ : Date) →
            Urgency.from_due_date today due = .Later))) ∧
    (today.m = 12 →
      dateNextMonth today = ⟨today.y + 1, 1, 31⟩ ∧
      ∀ due, dlt (dateNextWeekend today) due →
        ((dle due (⟨today.y + 1, 1, 31⟩ : Date) →
            Urgency.from_due_date today due = .NextMonth) ∧
         (¬ dle due (⟨today.y + 1, 1, 31⟩ : Date) →
            Urgency.from_due_date today due = .Later))) := by
  constructor
  · intro hm
    have hb : dateNextMonth today = ⟨today.y, 12, 31⟩ := by
      unfold dateNextMonth
      rw [if_pos hm]
      unfold predDate
      simp only [Date_mk_d, Date_mk_m, Date_mk_y]
      rw [if_neg (by omega), if_neg (by omega)]
      rw [Date.mk.injEq]
      omega
    refine ⟨hb, fun due hlt => ?_⟩
    rw [← hb]
    exact from_due_date_late today due hlt
  · intro hm
    have hb : dateNextMonth today = ⟨today.y + 1, 1, 31⟩ := by
      unfold dateNextMonth
      rw [if_neg (by omega), if_pos hm]
      unfold predDate
      simp only [Date_mk_d, Date_mk_m, Date_mk_y]
      rw [if_neg (by omega), if_pos (by omega)]
      rw [Date.mk.injEq]
      refine ⟨rfl, by omega, ?_⟩
      show daysInMonth (today.y + 1) (2 - 1) = 31
      unfold daysInMonth monthLength
      cases isLeapYear (today.y + 1) <;> rfl
    refine ⟨hb, fun due hlt => ?_⟩
    rw [← hb]
    exact from_due_date_late today due hlt

/-- Witness for C3 at concrete November and December snapshots. -/
theorem C3_amended_witness :
    (dateNextMonth ⟨2023, 11, 15⟩ = ⟨2023, 12, 31⟩ ∧
      Urgency.from_due_date ⟨2023, 11, 15⟩ ⟨2023, 12, 20⟩ = .NextMonth ∧
      Urgency.from_due_date ⟨2023, 11, 15⟩ ⟨2024, 1, 15⟩ = .Later) ∧
    (dateNextMonth ⟨2023, 12, 15⟩ = ⟨2024, 1, 31⟩ ∧
      Urgency.from_due_date ⟨2023, 12, 15⟩ ⟨2024, 1, 20⟩ = .NextMonth ∧
      Urgency.from_due_date ⟨2023, 12, 15⟩ ⟨2024, 2, 15⟩ = .Later) := by
  have h11 := (C3_amended ⟨2023, 11, 15⟩).1 (by decide)
  have h12 := (C3_amended ⟨2023, 12, 15⟩).2 (by decide)
  refine ⟨⟨h11.1, ?_, ?_⟩, ⟨h12.1, ?_, ?_⟩⟩
  · exact (h11.2 ⟨2023, 12, 20⟩ (by decide)).1 (by decide)
  · exact (h11.2 ⟨2024, 1, 15⟩ (by decide)).2 (by decide)
  · exact (h12.2 ⟨2024, 1, 20⟩ (by decide)).1 (by decide)
  · exact (h12.2 ⟨2024, 2, 15⟩ (by decide)).2 (by decide)

/-! ## The weekend shift in `set_urgency` (claim C7) -/

/-- `has_context("work") || has_context("school")` as a pure predicate on a
description. -/
def hasWorkOrSchool (desc : Str) : Bool :=
  ((buildContexts desc).any fun c => lowerStr c = workStr) ||
  ((buildContexts desc).any fun c => lowerStr c = schoolStr)

theorem dle_y {a b : Date} (h : dle a b) : a.y ≤ b.y := by
  unfold dle at h; omega

theorem daysInMonth_pos {y m : Nat} (h1 : 1 ≤ m) (h2 : m ≤ 12) :
    1 ≤ daysInMonth y m := by
  unfold daysInMonth monthLength
  cases isLeapYear y <;> interval_cases m <;> simp

/-- The target date of every urgency later than `Today` is a valid date on
or after today. -/
theorem urgTargetDate_ge {today : Date} (hv : today.Valid) (urg : Urgency)
    (hu : urgLt .Today urg) :
    dle today (urgTargetDate today urg) ∧ (urgTargetDate today urg).Valid := by
  obtain ⟨h1, h2, h3, h4⟩ := hv
  cases urg with
  | Overdue => exact absurd hu (by decide)
  | Today => exact absurd hu (by decide)
  | Soon => exact ⟨dle_addDays _ _, addDays_valid ⟨h1, h2, h3, h4⟩ _⟩
  | ThisWeek => exact ⟨dle_addDays _ _, addDays_valid ⟨h1, h2, h3, h4⟩ _⟩
  | NextWeek =>
    refine ⟨?_, addDays_valid (addDays_valid ⟨h1, h2, h3, h4⟩ _) _⟩
    exact dle_trans (dle_addDays _ _) (dle_addDays _ _)
  | Later => exact ⟨dle_addDays _ _, addDays_valid ⟨h1, h2, h3, h4⟩ _⟩
  | NextMonth =>
    show dle today (dateNextMonth today) ∧ (dateNextMonth today).Valid
    by_cases hm11 : today.m = 11
    · have hb : dateNextMonth today = ⟨today.y, 12, 31⟩ := by
        unfold dateNextMonth
        rw [if_pos hm11]
        unfold predDate
        simp only [Date_mk_d, Date_mk_m, Date_mk_y]
        rw [if_neg (by omega), if_neg (by omega), Date.mk.injEq]
        omega
      rw [hb]
      constructor
      · unfold dle
        simp only [Date_mk_y, Date_mk_m, Date_mk_d, lt_self_iff_false,
          true_and, false_or]
        omega
      · refine ⟨?_, ?_, ?_, ?_⟩ <;> simp only [Date_mk_y, Date_mk_m, Date_mk_d]
        · omega
        · omega
        · omega
        · unfold daysInMonth monthLength
          cases isLeapYear today.y <;> simp
    by_cases hm12 : today.m = 12
    · have hb : dateNextMonth today = ⟨today.y + 1, 1, 31⟩ := by
        unfold dateNextMonth
        rw [if_neg hm11, if_pos hm12]
        unfold predDate
        simp only [Date_mk_d, Date_mk_m, Date_mk_y]
        rw [if_neg (by omega), if_pos (by omega), Date.mk.injEq]
        refine ⟨rfl, by omega, ?_⟩
        show daysInMonth (today.y + 1) (2 - 1) = 31
        unfold daysInMonth monthLength
        cases isLeapYear (today.y + 1) <;> rfl
      rw [hb]
      constructor
      · unfold dle
        simp only [Date_mk_y, Date_mk_m, Date_mk_d, lt_self_iff_false,
          true_and, false_or]
        omega
      · refine ⟨?_, ?_, ?_, ?_⟩ <;> simp only [Date_mk_y, Date_mk_m, Date_mk_d]
        · omega
        · omega
        · omega
        · unfold daysInMonth monthLength
          cases isLeapYear (today.y + 1) <;> simp
    · have hb : dateNextMonth today =
          ⟨today.y, today.m + 1, daysInMonth today.y (today.m + 1)⟩ := by
        unfold dateNextMonth
        rw [if_neg hm11, if_neg hm12]
        unfold predDate
        simp only [Date_mk_d, Date_mk_m, Date_mk_y]
        rw [if_neg (by omega), if_pos (by omega), Date.mk.injEq]
        refine ⟨rfl, by omega, ?_⟩
        have he : today.m + 2 - 1 = today.m + 1 := by omega
        rw [he]
      rw [hb]
      constructor
      · unfold dle
        simp only [Date_mk_y, Date_mk_m, Date_mk_d, lt_self_iff_false,
          true_and, false_or]
        omega
      · refine ⟨?_, ?_, ?_, ?_⟩ <;> simp only [Date_mk_y, Date_mk_m, Date_mk_d]
        · omega
        · omega
        · exact daysInMonth_pos (by omega) (by omega)
        · exact Nat.le_refl _

/-- The weekend shift moves a Saturday target back one day and a Sunday
target back two days, landing on the preceding Friday; other targets are
untouched. -/
theorem weekendAdjust_spec {t : Date} (hv : t.Valid) (hy : 3 ≤ t.y) :
    (isoWeekday t = 6 →
      weekendAdjust t = predDate t ∧ isoWeekday (weekendAdjust t) = 5) ∧
    (isoWeekday t = 7 →
      weekendAdjust t = predDate (predDate t) ∧
      isoWeekday (weekendAdjust t) = 5) ∧
    (isoWeekday t ≠ 6 → isoWeekday t ≠ 7 → weekendAdjust t = t) := by
  have hp1 : (predDate t).Valid := predDate_valid hv
  have hpy := predDate_y t
  have hr1 : rataDie t = rataDie (predDate t) + 1 := rataDie_pred hv (by omega)
  have hr2 : rataDie (predDate t) = rataDie (predDate (predDate t)) + 1 :=
    rataDie_pred hp1 (by omega)
  have hpos1 : 1 ≤ rataDie (predDate t) := rataDie_pos hp1
  have hpos2 : 1 ≤ rataDie (predDate (predDate t)) :=
    rataDie_pos (predDate_valid hp1)
  refine ⟨?_, ?_, ?_⟩
  · intro h6
    unfold weekendAdjust
    rw [if_pos h6]
    refine ⟨rfl, ?_⟩
    unfold isoWeekday at h6 ⊢
    omega
  · intro h7
    unfold weekendAdjust
    rw [if_neg (by omega), if_pos h7]
    refine ⟨rfl, ?_⟩
    unfold isoWeekday at h7 ⊢
    omega
  · intro h6 h7
    unfold weekendAdjust
    rw [if_neg h6, if_neg h7]

/-- Evaluation of the short-circuit work/school test on an item whose
contexts cache is uninitialized. -/
theorem setUrgCond_spec (i : Item) (urg : Urgency) (hc : i._contexts = none) :
    (setUrgCond i urg).1 =
      (decide (urgLt Urgency.Today urg) && hasWorkOrSchool i.description) ∧
    (setUrgCond i urg).2.description = i.description ∧
    (setUrgCond i urg).2._kv = i._kv := by
  have hlw : lowerStr (stripAt workStr) = workStr := by decide
  have hls : lowerStr (stripAt schoolStr) = schoolStr := by decide
  unfold setUrgCond
  by_cases hu : urgLt Urgency.Today urg
  · rw [if_pos hu]
    unfold Item.has_context Item.contexts
    rw [hc]
    simp only [hlw, hls]
    by_cases hw :
        ((buildContexts i.description).any fun c => lowerStr c = workStr)
    · rw [if_pos (by simpa using hw)]
      unfold hasWorkOrSchool
      rw [hw]
      simp [hu]
    · rw [Bool.not_eq_true] at hw
      rw [if_neg (by simp [hw])]
      unfold hasWorkOrSchool
      rw [hw]
      simp [hu]
  · rw [if_neg hu]
    simp [hu]

/-- The description written by `set_urgency` when the item has no `due:`
tag: the due token is appended, carrying the weekend-adjusted target date
exactly when the urgency is later than `Today` and the task has a work or
school context. -/
theorem set_urgency_desc (i : Item) (urg : Urgency) (today : Date)
    (hc : i._contexts = none) (hk : i._kv = none)
    (hdue : kvLookup (scanKV i.description) dueStr = none) :
    (i.set_urgency urg today).description =
      i.description ++ ' ' :: (dueColon ++
        formatDate
          (if (decide (urgLt Urgency.Today urg) && hasWorkOrSchool i.description)
              = true
           then weekendAdjust (urgTargetDate today urg)
           else urgTargetDate today urg)) := by
  obtain ⟨hcond, hdesc, hkv⟩ := setUrgCond_spec i urg hc
  unfold Item.set_urgency Item.kv
  simp only []
  rw [hkv, hk]
  simp only [hdesc, hdue]
  unfold Item.set_description
  simp [hcond]

/-- C7: for `set_urgency` with a target urgency later than `Today` on a
task that has a `work` or `school` context, if the computed target date
lands on a Saturday it is shifted back one day, and if it lands on a Sunday
it is shifted back two days, so the `due:` date written into the
description is the preceding Friday; a task without such a context, or a
target of `Today`, is given the unshifted computed date.  The closing
conjuncts evaluate the full operation on concrete tasks. -/
theorem C7_weekend_shift (today : Date) (urg : Urgency)
    (hv : today.Valid) (hy : 3 ≤ today.y) :
    (urgLt Urgency.Today urg →
      ((isoWeekday (urgTargetDate today urg) = 6 →
          weekendAdjust (urgTargetDate today urg) =
            predDate (urgTargetDate today urg) ∧
          isoWeekday (weekendAdjust (urgTargetDate today urg)) = 5) ∧
       (isoWeekday (urgTargetDate today urg) = 7 →
          weekendAdjust (urgTargetDate today urg) =
            predDate (predDate (urgTargetDate today urg)) ∧
          isoWeekday (weekendAdjust (urgTargetDate today urg)) = 5) ∧
       (isoWeekday (urgTargetDate today urg) ≠ 6 →
          isoWeekday (urgTargetDate today urg) ≠ 7 →
          weekendAdjust (urgTargetDate today urg) = urgTargetDate today urg))) ∧
    (∀ i : Item, i._contexts = none → i._kv = none →
      kvLookup (scanKV i.description) dueStr = none →
      (i.set_urgency urg today).description =
        i.description ++ ' ' :: (dueColon ++
          formatDate
            (if (decide (urgLt Urgency.Today urg) &&
                  hasWorkOrSchool i.description) = true
             then weekendAdjust (urgTargetDate today urg)
             else urgTargetDate today urg))) ∧
    ((((Item.parse ("task @work".data)).getD Item.new).set_urgency .Soon
        ⟨2023, 11, 16⟩).description = "task @work due:2023-11-17".data ∧
      urgTargetDate ⟨2023, 11, 16⟩ .Soon = ⟨2023, 11, 18⟩ ∧
      isoWeekday ⟨2023, 11, 18⟩ = 6 ∧ isoWeekday ⟨2023, 11, 17⟩ = 5) ∧
    ((((Item.parse ("task @school".data)).getD Item.new).set_urgency .NextWeek
        ⟨2023, 11, 16⟩).description = "task @school due:2023-11-24".data ∧
      urgTargetDate ⟨2023, 11, 16⟩ .NextWeek = ⟨2023, 11, 26⟩ ∧
      isoWeekday ⟨2023, 11, 26⟩ = 7 ∧ isoWeekday ⟨2023, 11, 24⟩ = 5) ∧
    (((Item.parse ("task @home".data)).getD Item.new).set_urgency .Soon
        ⟨2023, 11, 16⟩).description = "task @home due:2023-11-18".data ∧
    (((Item.parse ("task @work".data)).getD Item.new).set_urgency .Today
        ⟨2023, 11, 18⟩).description = "task @work due:2023-11-18".data := by
  refine ⟨?_, ?_, by decide, by decide, by decide, by decide⟩
  · intro hu
    obtain ⟨hge, hval⟩ := urgTargetDate_ge hv urg hu
    have hty : 3 ≤ (urgTargetDate today urg).y := by
      have := dle_y hge; omega
    exact weekendAdjust_spec hval hty
  · intro i hc hk hdue
    exact set_urgency_desc i urg today hc hk hdue

/-- Witness for C7 at a concrete Thursday snapshot and the `Soon` target
(which lands on the Saturday 2023-11-18). -/
theorem C7_weekend_shift_witness :
    ((⟨2023, 11, 16⟩ : Date).Valid ∧ 3 ≤ (⟨2023, 11, 16⟩ : Date).y ∧
      urgLt Urgency.Today .Soon ∧
      isoWeekday (urgTargetDate ⟨2023, 11, 16⟩ .Soon) = 6) ∧
    weekendAdjust (urgTargetDate ⟨2023, 11, 16⟩ .Soon) =
      predDate (urgTargetDate ⟨2023, 11, 16⟩ .Soon) ∧
    isoWeekday (weekendAdjust (urgTargetDate ⟨2023, 11, 16⟩ .Soon)) = 5 :=
  ⟨⟨by decide, by decide, by decide, by decide⟩,
    ((C7_weekend_shift ⟨2023, 11, 16⟩ .Soon (by decide) (by decide)).1
        (by decide)).1 (by decide)⟩

/-! ## Round-trip of display and parse (claim C1) -/

theorem isDigitCh_digitCh (n : Nat) : isDigitCh (digitCh n) = true := by
  unfold digitCh
  split <;> decide

theorem isWs_digitCh (n : Nat) : isWs (digitCh n) = false := by
  unfold digitCh
  split <;> decide

theorem digitCh_ne_x (n : Nat) : digitCh n ≠ 'x' := by
  unfold digitCh
  split <;> decide

theorem digitCh_ne_lp (n : Nat) : digitCh n ≠ '(' := by
  unfold digitCh
  split <;> decide

theorem digitVal_digitCh {n : Nat} (h : n ≤ 9) : digitVal (digitCh n) = n := by
  interval_cases n <;> decide

theorem digitVal_digitCh_mod (n : Nat) : digitVal (digitCh (n % 10)) = n % 10 :=
  digitVal_digitCh (by omega)

theorem daysInMonth_le_31 (y m : Nat) : daysInMonth y m ≤ 31 := by
  unfold daysInMonth monthLength
  cases isLeapYear y <;> split <;> simp

theorem formatDate_shape (dt : Date) (hy : dt.y < 10000) :
    formatDate dt = [digitCh (dt.y / 1000 % 10), digitCh (dt.y / 100 % 10),
      digitCh (dt.y / 10 % 10), digitCh (dt.y % 10), '-',
      digitCh (dt.m / 10 % 10), digitCh (dt.m % 10), '-',
      digitCh (dt.d / 10 % 10), digitCh (dt.d % 10)] := by
  unfold formatDate formatYear pad4 pad2
  rw [if_pos hy]
  rfl

/-- Reading back a formatted date token. -/
theorem readDate_format (dt : Date) (hy : dt.y < 10000) (r : Str) :
    readDate (formatDate dt ++ r) = some (formatDate dt, r) := by
  rw [formatDate_shape dt hy]
  unfold readDate
  simp only [List.cons_append, List.nil_append]
  rw [if_pos (by simp [isDigitCh_digitCh])]

/-- Strict parsing inverts formatting on valid dates up to year 9999. -/
theorem parseDateStr_format {dt : Date} (hv : dt.Valid) (hy : dt.y < 10000) :
    parseDateStr (formatDate dt) = some dt := by
  obtain ⟨y, m, dd⟩ := dt
  obtain ⟨h1, h2, h3, h4⟩ := hv
  simp only [Date_mk_y, Date_mk_m, Date_mk_d] at h1 h2 h3 h4 hy
  have hd31 : dd ≤ 31 := le_trans h4 (daysInMonth_le_31 _ _)
  rw [formatDate_shape ⟨y, m, dd⟩ hy]
  simp only [Date_mk_y, Date_mk_m, Date_mk_d]
  simp only [parseDateStr]
  rw [if_pos (by simp [isDigitCh_digitCh])]
  simp only [digitVal_digitCh_mod]
  have hyy : ((y / 1000 % 10 * 10 + y / 100 % 10) * 10 + y / 10 % 10) * 10
      + y % 10 = y := by omega
  have hmm : m / 10 % 10 * 10 + m % 10 = m := by omega
  have hdd : dd / 10 % 10 * 10 + dd % 10 = dd := by omega
  rw [hyy, hmm, hdd, if_pos ⟨h1, h2, h3, h4⟩]

/-- A trimmed non-empty string starts with a non-whitespace character. -/
theorem trim_head {s : Str} (ht : trimStr s = s) (hne : s ≠ []) :
    s.takeWhile isWs = [] := by
  cases s with
  | nil => cases hne rfl
  | cons c t =>
    cases hw : isWs c with
    | false => rw [List.takeWhile_cons, hw]; simp
    | true =>
      exfalso
      have hlen : (trimStr (c :: t)).length ≤ t.length := by
        unfold trimStr
        rw [List.dropWhile_cons, hw]
        simp only [if_pos]
        calc (((t.dropWhile isWs).reverse.dropWhile isWs).reverse).length
            = ((t.dropWhile isWs).reverse.dropWhile isWs).length := by
              rw [List.length_reverse]
          _ ≤ (t.dropWhile isWs).reverse.length := dropWhileLenLe _ _
          _ = (t.dropWhile isWs).length := by rw [List.length_reverse]
          _ ≤ t.length := dropWhileLenLe _ _
      rw [ht] at hlen
      simp at hlen

/-- A non-whitespace head stops the whitespace run. -/
theorem takeWhile_nonws {c : Char} (h : isWs c = false) (t : Str) :
    (c :: t).takeWhile isWs = [] := by
  rw [List.takeWhile_cons, h]
  simp

/-- A failed grab means the group cannot consume: either the token reader
fails or no whitespace follows. -/
theorem grabX_false {s : Str} (h : grabX s = false) :
    readX s = none ∨
      ∃ a rest, readX s = some (a, rest) ∧ rest.takeWhile isWs = [] := by
  cases hrd : readX s with
  | none => exact Or.inl rfl
  | some pr =>
    right
    refine ⟨pr.1, pr.2, rfl, ?_⟩
    unfold grabX at h
    rw [hrd] at h
    simpa using h

theorem grabPrio_false {s : Str} (h : grabPrio s = false) :
    readPrio s = none ∨
      ∃ a rest, readPrio s = some (a, rest) ∧ rest.takeWhile isWs = [] := by
  cases hrd : readPrio s with
  | none => exact Or.inl rfl
  | some pr =>
    right
    refine ⟨pr.1, pr.2, rfl, ?_⟩
    unfold grabPrio at h
    rw [hrd] at h
    simpa using h

theorem grabDate_false {s : Str} (h : grabDate s = false) :
    readDate s = none ∨
      ∃ a rest, readDate s = some (a, rest) ∧ rest.takeWhile isWs = [] := by
  cases hrd : readDate s with
  | none => exact Or.inl rfl
  | some pr =>
    right
    refine ⟨pr.1, pr.2, rfl, ?_⟩
    unfold grabDate at h
    rw [hrd] at h
    simpa using h

/-- `readX` fails on any other head character. -/
theorem readX_head {c : Char} (h : c ≠ 'x') (t : Str) :
    readX (c :: t) = none := by
  simp only [readX]
  rw [if_neg h]

/-- `readPrio` fails on any head other than `(`. -/
theorem readPrio_head {c : Char} (h : c ≠ '(') (t : Str) :
    readPrio (c :: t) = none := by
  cases t with
  | nil => rfl
  | cons b t2 =>
    cases t2 with
    | nil => rfl
    | cons c2 r =>
      simp only [readPrio]
      rw [if_neg (fun hc => h hc.1)]

/-- Chain lemma: the completion group consumes a leading `x` and one space
when the remainder matches. -/
theorem matchItem_x {t : Str} {r : RawCaps}
    (ht : t.takeWhile isWs = []) (hnext : tryG2 (some ()) t = some r) :
    matchItem ('x' :: ' ' :: t) = some r := by
  unfold matchItem
  rw [groupOpts_tok readX
    (show readX ('x' :: ' ' :: t) = some ((), ' ' :: t) by simp [readX]) ht,
    List.findSome?_cons]
  simp only [hnext]

/-- Chain lemma: the completion group is skipped when it cannot consume. -/
theorem matchItem_nox {s : Str} {r : RawCaps}
    (hs : readX s = none ∨
      ∃ a rest, readX s = some (a, rest) ∧ rest.takeWhile isWs = [])
    (hnext : tryG2 none s = some r) :
    matchItem s = some r := by
  unfold matchItem
  rw [groupOpts_skip_cases readX hs, List.findSome?_cons]
  simp only [hnext]

/-- Chain lemma: the priority group consumes `(P) `. -/
theorem tryG2_prio {p : Char} {t : Str} {cx : Option Unit} {r : RawCaps}
    (hp : 'A' ≤ p ∧ p ≤ 'Z') (ht : t.takeWhile isWs = [])
    (hnext : tryG3 cx (some p) t = some r) :
    tryG2 cx ('(' :: p :: ')' :: ' ' :: t) = some r := by
  unfold tryG2
  rw [groupOpts_tok readPrio
    (show readPrio ('(' :: p :: ')' :: ' ' :: t) = some (p, ' ' :: t) by
      simp [readPrio, hp.1, hp.2]) ht,
    List.findSome?_cons]
  simp only [hnext]

/-- Chain lemma: the priority group is skipped. -/
theorem tryG2_nop {s : Str} {cx : Option Unit} {r : RawCaps}
    (hs : readPrio s = none ∨
      ∃ a rest, readPrio s = some (a, rest) ∧ rest.takeWhile isWs = [])
    (hnext : tryG3 cx none s = some r) :
    tryG2 cx s = some r := by
  unfold tryG2
  rw [groupOpts_skip_cases readPrio hs, List.findSome?_cons]
  simp only [hnext]

/-- Chain lemma: the first date group consumes a formatted date and one
space. -/
theorem tryG3_date {dt : Date} {t : Str} {cx : Option Unit} {cp : Option Char}
    {r : RawCaps} (hy : dt.y < 10000) (ht : t.takeWhile isWs = [])
    (hnext : tryG4 cx cp (some (formatDate dt)) t = some r) :
    tryG3 cx cp (formatDate dt ++ ' ' :: t) = some r := by
  unfold tryG3
  rw [groupOpts_tok readDate (readDate_format dt hy (' ' :: t)) ht,
    List.findSome?_cons]
  simp only [hnext]

/-- Chain lemma: the first date group is skipped. -/
theorem tryG3_nod {s : Str} {cx : Option Unit} {cp : Option Char} {r : RawCaps}
    (hs : readDate s = none ∨
      ∃ a rest, readDate s = some (a, rest) ∧ rest.takeWhile isWs = [])
    (hnext : tryG4 cx cp none s = some r) :
    tryG3 cx cp s = some r := by
  unfold tryG3
  rw [groupOpts_skip_cases readDate hs, List.findSome?_cons]
  simp only [hnext]

/-- Chain lemma: the second date group consumes a formatted date and one
space. -/
theorem tryG4_date {dt : Date} {t : Str} {cx : Option Unit} {cp : Option Char}
    {c3 : Option Str} {r : RawCaps} (hy : dt.y < 10000)
    (ht : t.takeWhile isWs = [])
    (hnext : tryDesc cx cp c3 (some (formatDate dt)) t = some r) :
    tryG4 cx cp c3 (formatDate dt ++ ' ' :: t) = some r := by
  unfold tryG4
  rw [groupOpts_tok readDate (readDate_format dt hy (' ' :: t)) ht,
    List.findSome?_cons]
  simp only [hnext]

/-- Chain lemma: the second date group is skipped. -/
theorem tryG4_nod {s : Str} {cx : Option Unit} {cp : Option Char}
    {c3 : Option Str} {r : RawCaps}
    (hs : readDate s = none ∨
      ∃ a rest, readDate s = some (a, rest) ∧ rest.takeWhile isWs = [])
    (hnext : tryDesc cx cp c3 none s = some r) :
    tryG4 cx cp c3 s = some r := by
  unfold tryG4
  rw [groupOpts_skip_cases readDate hs, List.findSome?_cons]
  simp only [hnext]

/-- The description group accepts any non-empty newline-free remainder. -/
theorem tryDesc_some {s : Str} (cx : Option Unit) (cp : Option Char)
    (c3 c4 : Option Str) (hdo : descOk s = true) :
    tryDesc cx cp c3 c4 s = some ⟨cx, cp, c3, c4, s⟩ := by
  unfold tryDesc
  rw [if_pos hdo]

/-- An uppercase priority letter is not the NUL sentinel. -/
theorem prio_ne_nul {p : Char} (h : 'A' ≤ p) : p ≠ nulChar := by
  intro he
  rw [he] at h
  exact absurd h (by decide)

/-- A line accepted by the description group is non-empty. -/
theorem descOk_ne_nil {s : Str} (h : descOk s = true) : s ≠ [] := by
  intro he
  rw [he] at h
  exact absurd h (by decide)

/-- The record built by `Item::parse` from a successful match. -/
theorem parse_of_match {s : Str} {caps : RawCaps}
    (hm : matchItem s = some caps) :
    Item.parse s = some { Item.new with
      completion := caps.cx.isSome,
      priority := match caps.cp with
        | some p => p
        | none => nulChar,
      completion_date :=
        if caps.c3.isSome ∧ caps.c4.isSome then parseDateStr (caps.c3.getD [])
        else none,
      creation_date :=
        if caps.c3.isSome ∧ caps.c4.isSome then parseDateStr (caps.c4.getD [])
        else if caps.c3.isSome then parseDateStr (caps.c3.getD [])
        else none,
      description := trimStr caps.c5 } := by
  unfold Item.parse
  rw [hm, Option.map_some']

/-- Date groups against two formatted dates followed by the description. -/
theorem tailT2 {cx : Option Unit} {cp : Option Char} {d1 d2 : Date}
    {desc : Str} (h1 : d1.y < 10000) (h2 : d2.y < 10000)
    (hdo : descOk desc = true) (hdw : desc.takeWhile isWs = []) :
    tryG3 cx cp (formatDate d1 ++ ' ' :: (formatDate d2 ++ ' ' :: desc)) =
      some ⟨cx, cp, some (formatDate d1), some (formatDate d2), desc⟩ := by
  apply tryG3_date h1
  · rw [formatDate_shape d2 h2]
    simp only [List.cons_append]
    exact takeWhile_nonws (isWs_digitCh _) _
  apply tryG4_date h2 hdw
  exact tryDesc_some _ _ _ _ hdo

/-- Date groups against one formatted date followed by the description. -/
theorem tailT1 {cx : Option Unit} {cp : Option Char} {d1 : Date} {desc : Str}
    (h1 : d1.y < 10000) (hdo : descOk desc = true)
    (hdw : desc.takeWhile isWs = []) (hgd : grabDate desc = false) :
    tryG3 cx cp (formatDate d1 ++ ' ' :: desc) =
      some ⟨cx, cp, some (formatDate d1), none, desc⟩ := by
  apply tryG3_date h1 hdw
  apply tryG4_nod (grabDate_false hgd)
  exact tryDesc_some _ _ _ _ hdo

/-- Date groups against the bare description. -/
theorem tailT0 {cx : Option Unit} {cp : Option Char} {desc : Str}
    (hdo : descOk desc = true) (hgd : grabDate desc = false) :
    tryG3 cx cp desc = some ⟨cx, cp, none, none, desc⟩ := by
  apply tryG3_nod (grabDate_false hgd)
  apply tryG4_nod (grabDate_false hgd)
  exact tryDesc_some _ _ _ _ hdo

/-- `readX` fails on a formatted date. -/
theorem readX_fmt (d : Date) (hy : d.y < 10000) (r : Str) :
    readX (formatDate d ++ r) = none := by
  rw [formatDate_shape d hy]
  simp only [List.cons_append]
  exact readX_head (digitCh_ne_x _) _

/-- `readPrio` fails on a formatted date. -/
theorem readPrio_fmt (d : Date) (hy : d.y < 10000) (r : Str) :
    readPrio (formatDate d ++ r) = none := by
  rw [formatDate_shape d hy]
  simp only [List.cons_append]
  exact readPrio_head (digitCh_ne_lp _) _

/-- Whitespace check for a date segment. -/
theorem takeWhile_fmt (d : Date) (hy : d.y < 10000) (r : Str) :
    (formatDate d ++ r).takeWhile isWs = [] := by
  rw [formatDate_shape d hy]
  simp only [List.cons_append]
  exact takeWhile_nonws (isWs_digitCh _) _

/-- An incomplete record carrying a completion date: Display drops the
date, so the round-trip of C1 fails on it. -/
def c1CounterItem : Item :=
  { Item.new with
    completion_date := some ⟨2010, 1, 1⟩
    description := "foo bar baz".data }

/-- Counterexample for C1: a record with a completion date but
`completion = false` does not round-trip — Display omits the completion
date of an incomplete task, so re-parsing loses it. -/
theorem C1_counterexample :
    (Item.parse c1CounterItem.display).map (fun j => j.completion_date) =
      some none ∧
    c1CounterItem.completion_date = some ⟨2010, 1, 1⟩ := by
  constructor
  · decide
  · decide

/-- C1 (amended): rendering a record with the display serialization and
re-parsing yields identical `completion`, `priority`, `completion_date`,
`creation_date` and `description`, for records that the serialization can
faithfully carry: the priority is the none sentinel or an uppercase ASCII
letter, every stored date is a valid calendar date with year at most 9999,
a completion date is only present on a completed record that also has a
creation date, and the description is non-empty, newline-free, equal to its
own trim and does not begin with a completion token, a priority token, or a
date token. -/
theorem C1_roundtrip (i : Item)
    (hpr : i.priority = nulChar ∨ ('A' ≤ i.priority ∧ i.priority ≤ 'Z'))
    (hcd : ∀ d, i.completion_date = some d →
      i.completion = true ∧ i.creation_date ≠ none ∧ d.Valid ∧ d.y < 10000)
    (hcr : ∀ d, i.creation_date = some d → d.Valid ∧ d.y < 10000)
    (hd1 : descOk i.description = true)
    (hd2 : trimStr i.description = i.description)
    (hd3 : grabX i.description = false)
    (hd4 : grabPrio i.description = false)
    (hd5 : grabDate i.description = false) :
    ∃ j, Item.parse i.display = some j ∧
      j.completion = i.completion ∧ j.priority = i.priority ∧
      j.completion_date = i.completion_date ∧
      j.creation_date = i.creation_date ∧
      j.description = i.description := by
  have hne := descOk_ne_nil hd1
  have hdw := trim_head hd2 hne
  cases hcomp : i.completion with
  | true =>
    cases hcdo : i.completion_date with
    | some d1 =>
      obtain ⟨-, hcrne, hval1, hy1⟩ := hcd d1 hcdo
      cases hcro : i.creation_date with
      | none => exact absurd hcro hcrne
      | some d2 =>
        obtain ⟨hval2, hy2⟩ := hcr d2 hcro
        rcases hpr with hpn | hpl
        · have hdisp : i.display = 'x' :: ' ' ::
              (formatDate d1 ++ ' ' :: (formatDate d2 ++ ' ' :: i.description)) := by
            unfold Item.display
            rw [hcomp, hcdo, hcro, hpn]
            simp [List.append_assoc]
          have hm : matchItem i.display = some ⟨some (), none,
              some (formatDate d1), some (formatDate d2), i.description⟩ := by
            rw [hdisp]
            apply matchItem_x (takeWhile_fmt d1 hy1 _)
            apply tryG2_nop (Or.inl (readPrio_fmt d1 hy1 _))
            exact tailT2 hy1 hy2 hd1 hdw
          refine ⟨_, parse_of_match hm, ?_, ?_, ?_, ?_, ?_⟩
          · simp [hcomp]
          · simp [hpn]
          · simp [hcdo, parseDateStr_format hval1 hy1]
          · simp [hcro, parseDateStr_format hval2 hy2]
          · simp [hd2]
        · have hdisp : i.display = 'x' :: ' ' :: '(' :: i.priority :: ')' :: ' ' ::
              (formatDate d1 ++ ' ' :: (formatDate d2 ++ ' ' :: i.description)) := by
            unfold Item.display
            rw [hcomp, hcdo, hcro]
            simp [prio_ne_nul hpl.1, List.append_assoc]
          have hm : matchItem i.display = some ⟨some (), some i.priority,
              some (formatDate d1), some (formatDate d2), i.description⟩ := by
            rw [hdisp]
            apply matchItem_x (takeWhile_nonws (by decide) _)
            apply tryG2_prio hpl (takeWhile_fmt d1 hy1 _)
            exact tailT2 hy1 hy2 hd1 hdw
          refine ⟨_, parse_of_match hm, ?_, ?_, ?_, ?_, ?_⟩
          · simp [hcomp]
          · simp
          · simp [hcdo, parseDateStr_format hval1 hy1]
          · simp [hcro, parseDateStr_format hval2 hy2]
          · simp [hd2]
    | none =>
      cases hcro : i.creation_date with
      | some d2 =>
        obtain ⟨hval2, hy2⟩ := hcr d2 hcro
        rcases hpr with hpn | hpl
        · have hdisp : i.display = 'x' :: ' ' ::
              (formatDate d2 ++ ' ' :: i.description) := by
            unfold Item.display
            rw [hcomp, hcdo, hcro, hpn]
            simp [List.append_assoc]
          have hm : matchItem i.display = some ⟨some (), none,
              some (formatDate d2), none, i.description⟩ := by
            rw [hdisp]
            apply matchItem_x (takeWhile_fmt d2 hy2 _)
            apply tryG2_nop (Or.inl (readPrio_fmt d2 hy2 _))
            exact tailT1 hy2 hd1 hdw hd5
          refine ⟨_, parse_of_match hm, ?_, ?_, ?_, ?_, ?_⟩
          · simp [hcomp]
          · simp [hpn]
          · simp [hcdo]
          · simp [hcro, parseDateStr_format hval2 hy2]
          · simp [hd2]
        · have hdisp : i.display = 'x' :: ' ' :: '(' :: i.priority :: ')' :: ' ' ::
              (formatDate d2 ++ ' ' :: i.description) := by
            unfold Item.display
            rw [hcomp, hcdo, hcro]
            simp [prio_ne_nul hpl.1, List.append_assoc]
          have hm : matchItem i.display = some ⟨some (), some i.priority,
              some (formatDate d2), none, i.description⟩ := by
            rw [hdisp]
            apply matchItem_x (takeWhile_nonws (by decide) _)
            apply tryG2_prio hpl (takeWhile_fmt d2 hy2 _)
            exact tailT1 hy2 hd1 hdw hd5
          refine ⟨_, parse_of_match hm, ?_, ?_, ?_, ?_, ?_⟩
          · simp [hcomp]
          · simp
          · simp [hcdo]
          · simp [hcro, parseDateStr_format hval2 hy2]
          · simp [hd2]
      | none =>
        rcases hpr with hpn | hpl
        · have hdisp : i.display = 'x' :: ' ' :: i.description := by
            unfold Item.display
            rw [hcomp, hcdo, hcro, hpn]
            simp [List.append_assoc]
          have hm : matchItem i.display = some ⟨some (), none,
              none, none, i.description⟩ := by
            rw [hdisp]
            apply matchItem_x hdw
            apply tryG2_nop (grabPrio_false hd4)
            exact tailT0 hd1 hd5
          refine ⟨_, parse_of_match hm, ?_, ?_, ?_, ?_, ?_⟩
          · simp [hcomp]
          · simp [hpn]
          · simp [hcdo]
          · simp [hcro]
          · simp [hd2]
        · have hdisp : i.display = 'x' :: ' ' :: '(' :: i.priority :: ')' :: ' ' ::
              i.description := by
            unfold Item.display
            rw [hcomp, hcdo, hcro]
            simp [prio_ne_nul hpl.1, List.append_assoc]
          have hm : matchItem i.display = some ⟨some (), some i.priority,
              none, none, i.description⟩ := by
            rw [hdisp]
            apply matchItem_x (takeWhile_nonws (by decide) _)
            apply tryG2_prio hpl hdw
            exact tailT0 hd1 hd5
          refine ⟨_, parse_of_match hm, ?_, ?_, ?_, ?_, ?_⟩
          · simp [hcomp]
          · simp
          · simp [hcdo]
          · simp [hcro]
          · simp [hd2]
  | false =>
    cases hcdo : i.completion_date with
    | some d1 => exact absurd (hcd d1 hcdo).1 (by simp [hcomp])
    | none =>
      cases hcro : i.creation_date with
      | some d2 =>
        obtain ⟨hval2, hy2⟩ := hcr d2 hcro
        rcases hpr with hpn | hpl
        · have hdisp : i.display = formatDate d2 ++ ' ' :: i.description := by
            unfold Item.display
            rw [hcomp, hcdo, hcro, hpn]
            simp [List.append_assoc]
          have hm : matchItem i.display = some ⟨none, none,
              some (formatDate d2), none, i.description⟩ := by
            rw [hdisp]
            apply matchItem_nox (Or.inl (readX_fmt d2 hy2 _))
            apply tryG2_nop (Or.inl (readPrio_fmt d2 hy2 _))
            exact tailT1 hy2 hd1 hdw hd5
          refine ⟨_, parse_of_match hm, ?_, ?_, ?_, ?_, ?_⟩
          · simp [hcomp]
          · simp [hpn]
          · simp [hcdo]
          · simp [hcro, parseDateStr_format hval2 hy2]
          · simp [hd2]
        · have hdisp : i.display = '(' :: i.priority :: ')' :: ' ' ::
              (formatDate d2 ++ ' ' :: i.description) := by
            unfold Item.display
            rw [hcomp, hcdo, hcro]
            simp [prio_ne_nul hpl.1, List.append_assoc]
          have hm : matchItem i.display = some ⟨none, some i.priority,
              some (formatDate d2), none, i.description⟩ := by
            rw [hdisp]
            apply matchItem_nox (Or.inl (readX_head (by decide) _))
            apply tryG2_prio hpl (takeWhile_fmt d2 hy2 _)
            exact tailT1 hy2 hd1 hdw hd5
          refine ⟨_, parse_of_match hm, ?_, ?_, ?_, ?_, ?_⟩
          · simp [hcomp]
          · simp
          · simp [hcdo]
          · simp [hcro, parseDateStr_format hval2 hy2]
          · simp [hd2]
      | none =>
        rcases hpr with hpn | hpl
        · have hdisp : i.display = i.description := by
            unfold Item.display
            rw [hcomp, hcdo, hcro, hpn]
            simp
          have hm : matchItem i.display = some ⟨none, none,
              none, none, i.description⟩ := by
            rw [hdisp]
            apply matchItem_nox (grabX_false hd3)
            apply tryG2_nop (grabPrio_false hd4)
            exact tailT0 hd1 hd5
          refine ⟨_, parse_of_match hm, ?_, ?_, ?_, ?_, ?_⟩
          · simp [hcomp]
          · simp [hpn]
          · simp [hcdo]
          · simp [hcro]
          · simp [hd2]
        · have hdisp : i.display = '(' :: i.priority :: ')' :: ' ' ::
              i.description := by
            unfold Item.display
            rw [hcomp, hcdo, hcro]
            simp [prio_ne_nul hpl.1, List.append_assoc]
          have hm : matchItem i.display = some ⟨none, some i.priority,
              none, none, i.description⟩ := by
            rw [hdisp]
            apply matchItem_nox (Or.inl (readX_head (by decide) _))
            apply tryG2_prio hpl hdw
            exact tailT0 hd1 hd5
          refine ⟨_, parse_of_match hm, ?_, ?_, ?_, ?_, ?_⟩
          · simp [hcomp]
          · simp
          · simp [hcdo]
          · simp [hcro]
          · simp [hd2]

/-- The record from the source's own Display test, used as the C1 witness. -/
def c1WitnessItem : Item :=
  { Item.new with
    completion := true
    priority := 'B'
    completion_date := some ⟨2010, 1, 1⟩
    creation_date := some ⟨2000, 12, 31⟩
    description := "foo bar baz".data }

/-- Witness for C1 at the source's Display test record
`x (B) 2010-01-01 2000-12-31 foo bar baz`. -/
theorem C1_roundtrip_witness :
    (descOk c1WitnessItem.description = true ∧
      trimStr c1WitnessItem.description = c1WitnessItem.description ∧
      grabX c1WitnessItem.description = false ∧
      grabPrio c1WitnessItem.description = false ∧
      grabDate c1WitnessItem.description = false) ∧
    ∃ j, Item.parse c1WitnessItem.display = some j ∧
      j.completion = c1WitnessItem.completion ∧
      j.priority = c1WitnessItem.priority ∧
      j.completion_date = c1WitnessItem.completion_date ∧
      j.creation_date = c1WitnessItem.creation_date ∧
      j.description = c1WitnessItem.description :=
  ⟨⟨by decide, by decide, by decide, by decide, by decide⟩,
    C1_roundtrip c1WitnessItem (Or.inr (by decide))
      (fun d hd => by
        have hd2 : (some (⟨2010, 1, 1⟩ : Date) : Option Date) = some d := hd
        injection hd2 with h
        subst h
        exact ⟨rfl, by decide, by decide, by decide⟩)
      (fun d hd => by
        have hd2 : (some (⟨2000, 12, 31⟩ : Date) : Option Date) = some d := hd
        injection hd2 with h
        subst h
        exact ⟨by decide, by decide⟩)
      (by decide) (by decide) (by decide) (by decide) (by decide)⟩
